import Mathlib

/-!
Verification of the SignalBot scrape-and-score pipeline (`src/app.py`).

This file shallowly embeds the pipeline core: the keyword matcher, the
deduplication gate, the AI scoring client (`ai_score_post`), the usage
ledger (`get_or_create_usage_month` and the quota check), and the
ingestion pipeline (`run_scrape`).

Modelling conventions:
* Python `int` is `Int`; SQL ids are `Nat`; a nullable column is `Option`.
* The SQLAlchemy session is modelled with two `DBView`s: `session` (what
  queries see, including pending adds and in-memory attribute mutations)
  and `durable` (what has been committed).  `commitDb` copies
  `session` to `durable`; queries read the session view (autoflush).
* External effects (reddit fetch, the OpenAI HTTP call) are oracles in
  `Env`; calls to them are counted in `WorldState` so that claims about
  "the external service is never invoked" can be stated.  The scoring
  oracle is indexed by the number of scoring calls made so far.
* Python exceptions are modelled by `Except`: the only statement inside
  the per-subreddit `try` of `run_scrape` that can raise in this model is
  `root.id` when `get_account_root` returns `None` (line 591 of app.py);
  the per-subreddit `except ... continue` catches it.  `ai_score_post`
  catches every exception of its `try` block internally.
* Text operations (`split`, `strip`, `lower`, substring, `join`, slicing)
  are implemented structurally over `List Char` so that they evaluate
  inside the kernel; they mirror the Python string methods used by the
  source (restricted to the ASCII behaviour exercised here).
-/

namespace SignalBot

/-! ## Characters and strings (structural re-implementations) -/

/-- Whitespace recognised by `str.strip()` (the ASCII part). -/
def isSpaceChar (c : Char) : Bool :=
  c == ' ' || c == '\t' || c == '\n' || c == '\r'

/-- `str.strip()` on a character list. -/
def trimChars (l : List Char) : List Char :=
  ((l.dropWhile isSpaceChar).reverse.dropWhile isSpaceChar).reverse

/-- `str.split(sep)` for a one-character separator: split at every
occurrence, keeping empty pieces, as Python does. -/
def splitChar (c : Char) : List Char → List (List Char)
  | [] => [[]]
  | x :: xs =>
    let rest := splitChar c xs
    if x == c then [] :: rest
    else
      match rest with
      | [] => [[x]]
      | g :: gs => (x :: g) :: gs

/-- `str.lower()` (ASCII behaviour, as used by the source). -/
def lowerStr (s : String) : String := ⟨s.data.map Char.toLower⟩

/-- `str.strip()`. -/
def stripStr (s : String) : String := ⟨trimChars s.data⟩

/-- `s.split(',')`. -/
def splitComma (s : String) : List String :=
  (splitChar ',' s.data).map (fun l => ⟨l⟩)

/-- Whether the first list starts the second. -/
def listStartsWith : List Char → List Char → Bool
  | [], _ => true
  | _ :: _, [] => false
  | a :: as, b :: bs => a == b && listStartsWith as bs

/-- Whether the first list occurs contiguously inside the second. -/
def listContainsSeg (needle : List Char) : List Char → Bool
  | [] => needle.isEmpty
  | x :: xs => listStartsWith needle (x :: xs) || listContainsSeg needle xs

/-- Python `needle in hay` on strings: substring containment. -/
def strContainsSub (hay needle : String) : Bool :=
  listContainsSeg needle.data hay.data

/-- `','.join(parts)`. -/
def joinComma : List String → String
  | [] => ""
  | [k] => k
  | k :: rest => k ++ "," ++ joinComma rest

/-- `s[:n]` — Python slicing by code points. -/
def strTake (s : String) (n : Nat) : String := ⟨s.data.take n⟩

/-- `[s.strip() for s in x.split(',') if s.strip()]` — app.py line 567. -/
def splitCommaTrim (s : String) : List String :=
  ((splitComma s).map stripStr).filter (fun t => !(t == ""))

/-- `[k.strip().lower() for k in x.split(',') if k.strip()]` — line 568. -/
def splitCommaTrimLower (s : String) : List String :=
  (((splitComma s).map stripStr).filter (fun t => !(t == ""))).map lowerStr

/-! ## Data model (the rows the pipeline reads and writes) -/

/-- `user` row — only the fields the pipeline reads. -/
structure PyUser where
  id : Nat
  parentId : Option Nat
deriving DecidableEq, Repr

/-- `plan` row — only the monthly AI-posts quota matters to the pipeline. -/
structure Plan where
  id : Nat
  aiPostsQuota : Int
deriving DecidableEq, Repr

/-- `subscription` row. -/
structure Subscription where
  userId : Nat
  planId : Nat
  active : Bool
deriving DecidableEq, Repr

/-- `scrape` row (the job configuration). -/
structure Scrape where
  id : Nat
  subreddits : String
  keywords : String
  limit : Nat
  userId : Nat
  lastRun : Option Nat
  isActive : Bool
  aiGuidance : Option String
  aiEnabled : Bool
deriving DecidableEq, Repr

/-- `result` row. -/
structure Result where
  scrapeId : Nat
  title : String
  author : String
  subreddit : String
  url : String
  score : Int
  keywordsFound : String
  aiScore : Option Int
  aiReasoning : String
  redditPostId : String
  isHidden : Bool
deriving DecidableEq, Repr

/-- `usage_month` row: per-account-root monthly counters. -/
structure UsageMonth where
  rootUserId : Nat
  year : Nat
  month : Nat
  aiPostsCount : Int
  postsProcessedCount : Int
deriving DecidableEq, Repr

/-- A candidate post as surfaced by PRAW.  `title`/`selftext`/`pid` are
`Option` because the source guards them (`post.title or ""`,
`getattr(post, "selftext", "") or ""`, `getattr(post, "id", None)`). -/
structure RPost where
  title : Option String
  selftext : Option String
  author : String
  permalink : String
  pid : Option String
  score : Int
deriving DecidableEq, Repr

/-- Outcome of one OpenAI chat-completions call, from the point of view of
`ai_score_post`'s `try` block: either some statement inside the block
raises (network error, timeout, malformed/non-JSON body, non-int score),
or the block obtains a parsed integer score (`int(j.get("score", 0))`)
and reason string (`str(j.get("reason", ""))`). -/
inductive ScoreOracle
  | raise (msg : String)
  | respond (score : Int) (reason : String)
deriving DecidableEq, Repr

/-- Outcome of iterating `reddit.subreddit(name).new(limit=...)`. -/
inductive FetchResult
  | raise (msg : String)
  | posts (ps : List RPost)
deriving DecidableEq, Repr

/-- One snapshot of the tables the pipeline mutates. -/
structure DBView where
  scrapes : List Scrape
  results : List Result
  usage : List UsageMonth
deriving DecidableEq, Repr

/-- Full pipeline state: committed data, session view, and counters of
commits and of calls to the external services. -/
structure WorldState where
  durable : DBView
  session : DBView
  commits : Nat
  aiCalls : Nat
  ghlCalls : Nat
  fetchCalls : Nat
deriving DecidableEq, Repr

/-- Read-only environment: tables the pipeline never writes, configuration
from the process environment, the current UTC date, and the external
oracles. -/
structure Env where
  users : List PyUser
  plans : List Plan
  subscriptions : List Subscription
  openaiKey : String
  aiMinScore : Int
  nowY : Nat
  nowM : Nat
  nowTime : Nat
  fetch : String → Nat → FetchResult
  scoreOracle : Nat → ScoreOracle

/-! ## Session / commit -/

/-- `db.session.commit()`: pending session state becomes durable. -/
def commitDb (st : WorldState) : WorldState :=
  { st with durable := st.session, commits := st.commits + 1 }

/-! ## Account helpers (app.py lines 190–218) -/

def findUser (env : Env) (uid : Nat) : Option PyUser :=
  env.users.find? (fun u => u.id == uid)

/-- `get_account_root`: `u.parent if u.parent_id else u`; `u.parent` is a
lookup of `parent_id` that yields `None` when the parent row is missing;
Python truthiness makes `parent_id = 0` behave like `None`. -/
def get_account_root (env : Env) (uid : Nat) : Option PyUser :=
  match findUser env uid with
  | none => none
  | some u =>
    if u.parentId.getD 0 ≠ 0 then findUser env (u.parentId.getD 0) else some u

/-- `get_active_subscription`: first subscription of the root marked active. -/
def get_active_subscription (env : Env) (rootUserId : Nat) : Option Subscription :=
  env.subscriptions.find? (fun s => s.userId == rootUserId && s.active)

/-- `sub.plan`: the relationship lookup by `plan_id`. -/
def planOfRoot (env : Env) (rootUserId : Nat) : Option Plan :=
  match get_active_subscription env rootUserId with
  | none => none
  | some sub => env.plans.find? (fun p => p.id == sub.planId)

/-- `get_plan_for_user`. -/
def get_plan_for_user (env : Env) (uid : Nat) : Option Plan :=
  match get_account_root env uid with
  | none => none
  | some root => planOfRoot env root.id

/-! ## Usage ledger (app.py lines 205–212) -/

/-- The filter of `UsageMonth.query.filter_by(root_user_id=…, year=y, month=m)`. -/
def usageKeyB (env : Env) (rootUserId : Nat) (u : UsageMonth) : Bool :=
  u.rootUserId == rootUserId && u.year == env.nowY && u.month == env.nowM

def findUsage (env : Env) (v : DBView) (rootUserId : Nat) : Option UsageMonth :=
  v.usage.find? (usageKeyB env rootUserId)

/-- `get_or_create_usage_month`: creating the month's row (first use in the
month) also calls `db.session.commit()`, which commits everything pending. -/
def get_or_create_usage_month (env : Env) (rootUserId : Nat) (st : WorldState) :
    WorldState :=
  match findUsage env st.session rootUserId with
  | some _ => st
  | none =>
    commitDb { st with session :=
      { st.session with usage :=
          st.session.usage ++ [⟨rootUserId, env.nowY, env.nowM, 0, 0⟩] } }

/-- Mutating an attribute of the single ORM object returned by
`get_or_create_usage_month`: in the session view this updates the first
row matching the (root, year, month) key. -/
def updateFirst {α : Type} (p : α → Bool) (f : α → α) : List α → List α
  | [] => []
  | x :: xs => if p x then f x :: xs else x :: updateFirst p f xs

def updateUsage (env : Env) (rootUserId : Nat) (f : UsageMonth → UsageMonth)
    (st : WorldState) : WorldState :=
  { st with session :=
    { st.session with usage := updateFirst (usageKeyB env rootUserId) f st.session.usage } }

/-- `usage.ai_posts_count` as read through the session (0 when absent; the
row is always ensured before it is read by the pipeline). -/
def usageCountD (env : Env) (v : DBView) (rootUserId : Nat) : Int :=
  ((findUsage env v rootUserId).map (fun u => u.aiPostsCount)).getD 0

/-! ## Scoring client (app.py lines 273–316) -/

/-- `score = max(1, min(10, score))`. -/
def clampScore (s : Int) : Int := max 1 (min 10 s)

/-- `ai_score_post`.  The first component models the Python variable that
elsewhere holds `None`, hence `Option Int`; every branch of the source
returns a plain `int` there (`0` on both failure paths), so every branch
here returns `some _`.  The whole body never raises: the missing-key path
returns before the `try`, and the `except` catches everything else. -/
def ai_score_post (apiKey : String) (oracle : ScoreOracle) : Option Int × String :=
  if apiKey = "" then (some 0, "AI disabled (missing OPENAI_API_KEY)")
  else
    match oracle with
    | .raise _ => (some 0, "AI unavailable")
    | .respond score reason => (some (clampScore score), strTake reason 1000)

/-! ## Keyword matcher (app.py lines 575–578) -/

/-- `text_all = f"{title} {body}".lower()`; `[kw for kw in keyword_list if
kw in text_all]`. -/
def matchKeywords (title body : String) (keywordList : List String) : List String :=
  let textAll := lowerStr (title ++ " " ++ body)
  keywordList.filter (fun kw => strContainsSub textAll kw)

/-- Modelled from the spec's words (§4.1, for the C6 refinement check):
"occur as a case-insensitive substring of `(title + " " + body)`". -/
def specCaseInsensitiveSub (needle hay : String) : Bool :=
  strContainsSub (lowerStr hay) (lowerStr needle)

/-- Modelled from the spec's words (§4.1): the subset of the keywords that
occur as a case-insensitive substring of `title + " " + body`. -/
def specMatch (title body : String) (keywordList : List String) : List String :=
  keywordList.filter (fun kw => specCaseInsensitiveSub kw (title ++ " " ++ body))

/-! ## Ingestion pipeline (app.py lines 560–642) -/

/-- `url = f"https://reddit.com{post.permalink}"`. -/
def mkUrl (p : RPost) : String := "https://reddit.com" ++ p.permalink

/-- `post_id = getattr(post, "id", None) or url`. -/
def postExternalId (p : RPost) : String :=
  match p.pid with
  | some s => if s = "" then mkUrl p else s
  | none => mkUrl p

/-- The dedup gate: `Result.query.filter_by(scrape_id=…, reddit_post_id=…)
.first()` is truthy. -/
def dupExists (v : DBView) (scrapeId : Nat) (postId : String) : Bool :=
  (v.results.find? (fun r => r.scrapeId == scrapeId && r.redditPostId == postId)).isSome

/-- `db.session.add(result)`. -/
def addResultState (st : WorldState) (r : Result) : WorldState :=
  { st with session := { st.session with results := st.session.results ++ [r] } }

/-- The `if scrape.ai_enabled: ...` block (lines 594–605): returns the
`(ai_score_val, ai_reason)` pair and the state after the quota
check-then-increment.  The scoring oracle for the call is indexed by the
number of scoring calls made so far. -/
def scoreBranch (env : Env) (scrape : Scrape) (root : PyUser) (st : WorldState) :
    (Option Int × String) × WorldState :=
  if scrape.aiEnabled then
    match get_plan_for_user env scrape.userId with
    | some plan =>
      if usageCountD env st.session root.id < plan.aiPostsQuota then
        let sr := ai_score_post env.openaiKey (env.scoreOracle st.aiCalls)
        let st' := updateUsage env root.id
          (fun u => { u with aiPostsCount := u.aiPostsCount + 1 })
          { st with aiCalls := st.aiCalls + 1 }
        (sr, st')
      else
        ((none, "AI quota exceeded (" ++ toString (usageCountD env st.session root.id)
            ++ "/" ++ toString plan.aiPostsQuota ++ ")"), st)
    | none => ((none, "No active subscription"), st)
  else ((none, "AI disabled for this scrape"), st)

/-- Lines 589–592: ensure the month's ledger row exists and bump
`posts_processed_count` on it. -/
def trackProcessed (env : Env) (root : PyUser) (st : WorldState) : WorldState :=
  updateUsage env root.id
    (fun u => { u with postsProcessedCount := u.postsProcessedCount + 1 })
    (get_or_create_usage_month env root.id st)

/-- The `Result(...)` record of lines 607–619. -/
def mkResult (scrape : Scrape) (keywordList : List String) (subredditName : String)
    (post : RPost) (scored : Option Int × String) : Result :=
  let title := post.title.getD ""
  let body := post.selftext.getD ""
  { scrapeId := scrape.id, title := title, author := post.author,
    subreddit := subredditName, url := mkUrl post, score := post.score,
    keywordsFound := joinComma (matchKeywords title body keywordList),
    aiScore := scored.1, aiReasoning := scored.2,
    redditPostId := postExternalId post, isHidden := false }

/-- The per-post mutation sequence (lines 589–631), entered once the post
has matched, passed the dedup gate, and the account root has been
resolved: track `posts_processed_count`, run the AI-scoring branch with
its quota check, persist the `Result`, and conditionally notify the CRM
(`send_to_ghl`, whose boolean outcome is ignored by the caller). -/
def postAdded (env : Env) (scrape : Scrape) (keywordList : List String)
    (subredditName : String) (st : WorldState) (post : RPost) (root : PyUser) :
    WorldState :=
  let st2 := trackProcessed env root st
  let scored := scoreBranch env scrape root st2
  let st4 := addResultState scored.2 (mkResult scrape keywordList subredditName post scored.1)
  if scrape.aiEnabled ∧ scored.1.1.getD 0 ≥ env.aiMinScore then
    { st4 with ghlCalls := st4.ghlCalls + 1 }
  else st4

/-- Processing of one candidate post (lines 575–631).  `.error` models the
`AttributeError` raised by `root.id` when the account root is missing —
the only raise point of the per-post code in this model, and it occurs
before any state mutation of the post. -/
def processPost (env : Env) (scrape : Scrape) (keywordList : List String)
    (subredditName : String) (st : WorldState) (post : RPost) :
    Except String WorldState :=
  let title := post.title.getD ""
  let body := post.selftext.getD ""
  let found := matchKeywords title body keywordList
  if found.isEmpty then .ok st
  else
    if dupExists st.session scrape.id (postExternalId post) then .ok st
    else
      match get_account_root env scrape.userId with
      | none => .error "AttributeError"
      | some root => .ok (postAdded env scrape keywordList subredditName st post root)

/-- The `for post in subreddit.new(...)` loop.  An exception thrown by a
post is caught by the per-subreddit handler (`except: continue`, line
633), which abandons the rest of this subreddit's posts; the raise point
precedes all writes, so the state at the raise is the loop state. -/
def processPosts (env : Env) (scrape : Scrape) (keywordList : List String)
    (subredditName : String) (st : WorldState) : List RPost → WorldState
  | [] => st
  | p :: rest =>
    match processPost env scrape keywordList subredditName st p with
    | .ok st' => processPosts env scrape keywordList subredditName st' rest
    | .error _ => st

/-- One iteration of the subreddit loop (lines 571–635): the fetch is
attempted (counted), and a fetch failure is caught and skips the source. -/
def processSubreddit (env : Env) (scrape : Scrape) (keywordList : List String)
    (st : WorldState) (subredditName : String) : WorldState :=
  let st0 := { st with fetchCalls := st.fetchCalls + 1 }
  match env.fetch subredditName scrape.limit with
  | .raise _ => st0
  | .posts ps => processPosts env scrape keywordList subredditName st0 ps

/-- `Scrape.query.get(scrape_id)`. -/
def findScrape (v : DBView) (sid : Nat) : Option Scrape :=
  v.scrapes.find? (fun s => s.id == sid)

/-- `scrape.last_run = datetime.utcnow()` (session mutation). -/
def setLastRun (env : Env) (scrapeId : Nat) (st : WorldState) : WorldState :=
  let upd : Scrape → Scrape := fun s =>
    if s.id == scrapeId then { s with lastRun := some env.nowTime } else s
  { st with session := { st.session with scrapes := st.session.scrapes.map upd } }

/-- `run_scrape` (lines 560–642).  Returns the post-run state; in this
sequential model nothing escapes the per-subreddit handlers, so the outer
`except`/rollback path (which exists for e.g. commit-time DB errors under
concurrency) is unreachable and the run always ends with the commit of
line 638. -/
def run_scrape (env : Env) (scrapeId : Nat) (st : WorldState) : WorldState :=
  match findScrape st.session scrapeId with
  | none => st
  | some scrape =>
    if !scrape.isActive then st
    else
      let subredditList := splitCommaTrim scrape.subreddits
      let keywordList := splitCommaTrimLower scrape.keywords
      let st1 := subredditList.foldl
        (fun acc name => processSubreddit env scrape keywordList acc name) st
      commitDb (setLastRun env scrape.id st1)

/-! ## List-level helper lemmas -/

theorem updateFirst_of_find?_none {α : Type} (p : α → Bool) (f : α → α) :
    ∀ l : List α, l.find? p = none → updateFirst p f l = l := by
  intro l
  induction l with
  | nil => intro _; rfl
  | cons x xs ih =>
    intro h
    by_cases hp : p x
    · rw [List.find?_cons_of_pos _ hp] at h; cases h
    · rw [List.find?_cons_of_neg _ hp] at h
      simp [updateFirst, hp, ih h]

theorem find?_eq_some_split {α : Type} (p : α → Bool) :
    ∀ (l : List α) (u : α), l.find? p = some u →
      ∃ l₁ l₂, l = l₁ ++ u :: l₂ ∧ (∀ x ∈ l₁, p x = false) ∧ p u = true := by
  intro l
  induction l with
  | nil => intro u h; simp [List.find?] at h
  | cons x xs ih =>
    intro u h
    by_cases hp : p x
    · simp [List.find?_cons, hp] at h
      exact ⟨[], xs, by simp [h], by simp, h ▸ hp⟩
    · simp [List.find?_cons, hp] at h
      obtain ⟨l₁, l₂, rfl, hl₁, hu⟩ := ih u h
      exact ⟨x :: l₁, l₂, rfl, by
        intro y hy
        rcases List.mem_cons.mp hy with rfl | hy
        · exact Bool.of_not_eq_true hp
        · exact hl₁ y hy, hu⟩

theorem updateFirst_append_of_none {α : Type} (p : α → Bool) (f : α → α)
    (l₁ : List α) (u : α) (l₂ : List α) (h₁ : ∀ x ∈ l₁, p x = false)
    (hu : p u = true) :
    updateFirst p f (l₁ ++ u :: l₂) = l₁ ++ f u :: l₂ := by
  induction l₁ with
  | nil => simp [updateFirst, hu]
  | cons x xs ih =>
    have hx : p x = false := h₁ x (List.mem_cons_self x xs)
    have ih' := ih (fun y hy => h₁ y (List.mem_cons_of_mem x hy))
    simp only [List.cons_append, updateFirst, hx, Bool.false_eq_true, if_false,
      List.append_eq] at ih' ⊢
    rw [ih']

theorem find?_append_of_none {α : Type} (p : α → Bool) (l₁ : List α) (u : α)
    (l₂ : List α) (h₁ : ∀ x ∈ l₁, p x = false) (hu : p u = true) :
    (l₁ ++ u :: l₂).find? p = some u := by
  induction l₁ with
  | nil => simp [List.find?_cons, hu]
  | cons x xs ih =>
    have hx : p x = false := h₁ x (List.mem_cons_self x xs)
    simp only [List.cons_append, List.find?_cons, hx]
    exact ih (fun y hy => h₁ y (List.mem_cons_of_mem x hy))

/-- After `updateFirst p f`, the first `p`-match is the image under `f` of
the old first match, provided `f` preserves `p`. -/
theorem find?_updateFirst {α : Type} (p : α → Bool) (f : α → α)
    (l : List α) (u : α) (h : l.find? p = some u) (hf : p (f u) = true) :
    (updateFirst p f l).find? p = some (f u) := by
  obtain ⟨l₁, l₂, rfl, hl₁, hu⟩ := find?_eq_some_split p l u h
  rw [updateFirst_append_of_none p f l₁ u l₂ hl₁ hu]
  exact find?_append_of_none p l₁ (f u) l₂ hl₁ hf

/-- Membership in `updateFirst p f l`: either an untouched element of `l`,
or the image of the first `p`-match. -/
theorem mem_updateFirst {α : Type} (p : α → Bool) (f : α → α) :
    ∀ (l : List α) (x : α), x ∈ updateFirst p f l →
      x ∈ l ∨ ∃ u, u ∈ l ∧ p u = true ∧ x = f u := by
  intro l
  induction l with
  | nil => intro x hx; cases hx
  | cons y ys ih =>
    intro x hx
    by_cases hp : p y
    · simp only [updateFirst, hp, if_true] at hx
      rcases List.mem_cons.mp hx with rfl | hx
      · exact Or.inr ⟨y, List.mem_cons_self y ys, hp, rfl⟩
      · exact Or.inl (List.mem_cons_of_mem y hx)
    · simp only [updateFirst, hp, if_false] at hx
      rcases List.mem_cons.mp hx with rfl | hx
      · exact Or.inl (List.mem_cons_self x ys)
      · rcases ih x hx with h | ⟨u, hu, hpu, rfl⟩
        · exact Or.inl (List.mem_cons_of_mem y h)
        · exact Or.inr ⟨u, List.mem_cons_of_mem y hu, hpu, rfl⟩

/-! ## Usage-counter monotonicity -/

/-- Every ledger row survives (same account root, same calendar month) with
an AI-posts counter at least as large. -/
def UsageMonoL (l l' : List UsageMonth) : Prop :=
  ∀ u ∈ l, ∃ u' ∈ l', u'.rootUserId = u.rootUserId ∧ u'.year = u.year ∧
    u'.month = u.month ∧ u.aiPostsCount ≤ u'.aiPostsCount

theorem usageMonoL_refl (l : List UsageMonth) : UsageMonoL l l :=
  fun u hu => ⟨u, hu, rfl, rfl, rfl, le_refl _⟩

theorem usageMonoL_trans {l₁ l₂ l₃ : List UsageMonth}
    (h₁ : UsageMonoL l₁ l₂) (h₂ : UsageMonoL l₂ l₃) : UsageMonoL l₁ l₃ := by
  intro u hu
  obtain ⟨v, hv, hr, hy, hm, hle⟩ := h₁ u hu
  obtain ⟨w, hw, hr', hy', hm', hle'⟩ := h₂ v hv
  exact ⟨w, hw, hr'.trans hr, hy'.trans hy, hm'.trans hm, hle.trans hle'⟩

theorem usageMonoL_append (l ext : List UsageMonth) : UsageMonoL l (l ++ ext) :=
  fun u hu => ⟨u, List.mem_append_left ext hu, rfl, rfl, rfl, le_refl _⟩

theorem usageMonoL_updateFirst (p : UsageMonth → Bool) (f : UsageMonth → UsageMonth)
    (hf : ∀ u, (f u).rootUserId = u.rootUserId ∧ (f u).year = u.year ∧
      (f u).month = u.month ∧ u.aiPostsCount ≤ (f u).aiPostsCount) :
    ∀ l, UsageMonoL l (updateFirst p f l) := by
  intro l
  induction l with
  | nil => intro u hu; cases hu
  | cons x xs ih =>
    intro u hu
    by_cases hp : p x
    · simp only [updateFirst, hp, if_true]
      rcases List.mem_cons.mp hu with rfl | hu
      · exact ⟨f u, List.mem_cons_self _ _, (hf u).1, (hf u).2.1, (hf u).2.2.1, (hf u).2.2.2⟩
      · exact ⟨u, List.mem_cons_of_mem _ hu, rfl, rfl, rfl, le_refl _⟩
    · simp only [updateFirst, hp, if_false]
      rcases List.mem_cons.mp hu with rfl | hu
      · exact ⟨u, List.mem_cons_self _ _, rfl, rfl, rfl, le_refl _⟩
      · obtain ⟨u', hu', h⟩ := ih u hu
        exact ⟨u', List.mem_cons_of_mem _ hu', h⟩

/-! ## Scoring-client lemmas -/

/-- The shapes an `ai_score_val` can take: the Python `None`, the integer
sentinel `0` of the two failure paths, or a clamped score in `[1, 10]`. -/
def AiShape (v : Option Int) : Prop :=
  v = none ∨ v = some 0 ∨ ∃ n, v = some n ∧ 1 ≤ n ∧ n ≤ 10

theorem clampScore_bounds (s : Int) : 1 ≤ clampScore s ∧ clampScore s ≤ 10 :=
  ⟨le_max_left 1 _, max_le (by norm_num) (min_le_left _ _)⟩

theorem ai_score_post_shape (k : String) (o : ScoreOracle) :
    AiShape (ai_score_post k o).1 := by
  unfold ai_score_post
  by_cases hk : k = ""
  · simp [hk, AiShape]
  · cases o with
    | raise m => simp [hk, AiShape]
    | respond s r =>
      simp only [hk, if_false]
      exact Or.inr (Or.inr ⟨clampScore s, rfl, (clampScore_bounds s).1, (clampScore_bounds s).2⟩)

/-! ## Key and counter lemmas for the usage ledger -/

theorem usageKeyB_self (env : Env) (rid : Nat) (a b : Int) :
    usageKeyB env rid ⟨rid, env.nowY, env.nowM, a, b⟩ = true := by
  simp [usageKeyB]

theorem usageKeyB_rootUserId {env : Env} {rid : Nat} {u : UsageMonth}
    (h : usageKeyB env rid u = true) : u.rootUserId = rid := by
  simp [usageKeyB] at h
  exact h.1.1

theorem usageCountD_of_find {env : Env} {v : DBView} {rid : Nat} {u : UsageMonth}
    (h : findUsage env v rid = some u) : usageCountD env v rid = u.aiPostsCount := by
  simp [usageCountD, h]

theorem usageCountD_of_none {env : Env} {v : DBView} {rid : Nat}
    (h : findUsage env v rid = none) : usageCountD env v rid = 0 := by
  simp [usageCountD, h]

/-! ## `get_or_create_usage_month` lemmas -/

theorem ensure_frame (env : Env) (rid : Nat) (st : WorldState) :
    (get_or_create_usage_month env rid st).session.results = st.session.results ∧
    (get_or_create_usage_month env rid st).session.scrapes = st.session.scrapes ∧
    (get_or_create_usage_month env rid st).aiCalls = st.aiCalls ∧
    (get_or_create_usage_month env rid st).ghlCalls = st.ghlCalls ∧
    (get_or_create_usage_month env rid st).fetchCalls = st.fetchCalls := by
  unfold get_or_create_usage_month commitDb
  split <;> exact ⟨rfl, rfl, rfl, rfl, rfl⟩

theorem ensure_usage (env : Env) (rid : Nat) (st : WorldState) :
    (get_or_create_usage_month env rid st).session.usage = st.session.usage ∨
    (get_or_create_usage_month env rid st).session.usage
      = st.session.usage ++ [⟨rid, env.nowY, env.nowM, 0, 0⟩] := by
  unfold get_or_create_usage_month commitDb
  split
  · exact Or.inl rfl
  · exact Or.inr rfl

theorem ensure_durable (env : Env) (rid : Nat) (st : WorldState) :
    (get_or_create_usage_month env rid st).durable = st.durable ∨
    (get_or_create_usage_month env rid st).durable
      = { st.session with usage := st.session.usage ++ [⟨rid, env.nowY, env.nowM, 0, 0⟩] } := by
  unfold get_or_create_usage_month commitDb
  split
  · exact Or.inl rfl
  · exact Or.inr rfl

theorem ensure_found (env : Env) (rid : Nat) (st : WorldState) :
    (findUsage env (get_or_create_usage_month env rid st).session rid).isSome = true := by
  unfold get_or_create_usage_month
  cases hf : findUsage env st.session rid with
  | some u =>
    show (findUsage env st.session rid).isSome = true
    rw [hf]; rfl
  | none =>
    have hall : ∀ x ∈ st.session.usage, usageKeyB env rid x = false := fun x hx =>
      Bool.of_not_eq_true (List.find?_eq_none.mp hf x hx)
    show (findUsage env (commitDb { st with session :=
        { st.session with usage :=
            st.session.usage ++ [⟨rid, env.nowY, env.nowM, 0, 0⟩] } }).session rid).isSome = true
    simp only [commitDb, findUsage]
    rw [find?_append_of_none _ _ _ _ hall (usageKeyB_self env rid 0 0)]
    rfl

theorem ensure_countD (env : Env) (rid : Nat) (st : WorldState) :
    usageCountD env (get_or_create_usage_month env rid st).session rid
      = usageCountD env st.session rid := by
  unfold get_or_create_usage_month
  cases hf : findUsage env st.session rid with
  | some u => rfl
  | none =>
    have hall : ∀ x ∈ st.session.usage, usageKeyB env rid x = false := by
      intro x hx
      exact Bool.of_not_eq_true (List.find?_eq_none.mp hf x hx)
    have lhs : findUsage env (commitDb { st with session :=
        { st.session with usage :=
            st.session.usage ++ [⟨rid, env.nowY, env.nowM, 0, 0⟩] } }).session rid
        = some ⟨rid, env.nowY, env.nowM, 0, 0⟩ := by
      simp only [commitDb, findUsage]
      exact find?_append_of_none _ _ _ _ hall (usageKeyB_self env rid 0 0)
    rw [usageCountD_of_find lhs, usageCountD_of_none hf]

/-! ## `updateUsage` lemmas -/

theorem updateUsage_frame (env : Env) (rid : Nat) (f : UsageMonth → UsageMonth)
    (st : WorldState) :
    (updateUsage env rid f st).session.results = st.session.results ∧
    (updateUsage env rid f st).session.scrapes = st.session.scrapes ∧
    (updateUsage env rid f st).durable = st.durable ∧
    (updateUsage env rid f st).commits = st.commits ∧
    (updateUsage env rid f st).aiCalls = st.aiCalls ∧
    (updateUsage env rid f st).ghlCalls = st.ghlCalls ∧
    (updateUsage env rid f st).fetchCalls = st.fetchCalls :=
  ⟨rfl, rfl, rfl, rfl, rfl, rfl, rfl⟩

theorem updateUsage_countD_keep (env : Env) (rid : Nat) (f : UsageMonth → UsageMonth)
    (st : WorldState)
    (hkey : ∀ u, usageKeyB env rid (f u) = usageKeyB env rid u)
    (hcnt : ∀ u, (f u).aiPostsCount = u.aiPostsCount) :
    usageCountD env (updateUsage env rid f st).session rid
      = usageCountD env st.session rid := by
  cases hf : findUsage env st.session rid with
  | some u =>
    have h' : findUsage env (updateUsage env rid f st).session rid = some (f u) := by
      simp only [updateUsage, findUsage] at hf ⊢
      exact find?_updateFirst (usageKeyB env rid) f st.session.usage u hf (by
        rw [hkey u]
        exact List.find?_some hf)
    rw [usageCountD_of_find h', usageCountD_of_find hf, hcnt u]
  | none =>
    have h' : findUsage env (updateUsage env rid f st).session rid = none := by
      simp only [updateUsage, findUsage] at hf ⊢
      rw [updateFirst_of_find?_none _ _ _ hf]
      exact hf
    rw [usageCountD_of_none h', usageCountD_of_none hf]

theorem updateUsage_found_keep (env : Env) (rid : Nat) (f : UsageMonth → UsageMonth)
    (st : WorldState)
    (hkey : ∀ u, usageKeyB env rid (f u) = usageKeyB env rid u) :
    (findUsage env (updateUsage env rid f st).session rid).isSome
      = (findUsage env st.session rid).isSome := by
  cases hf : findUsage env st.session rid with
  | some u =>
    have h' : findUsage env (updateUsage env rid f st).session rid = some (f u) := by
      simp only [updateUsage, findUsage] at hf ⊢
      exact find?_updateFirst (usageKeyB env rid) f st.session.usage u hf
        (by rw [hkey u]; exact List.find?_some hf)
    rw [h']
    rfl
  | none =>
    have h' : findUsage env (updateUsage env rid f st).session rid = none := by
      simp only [updateUsage, findUsage] at hf ⊢
      rw [updateFirst_of_find?_none _ _ _ hf]; exact hf
    rw [h']

theorem updateUsage_countD_inc (env : Env) (rid : Nat) (st : WorldState)
    (u : UsageMonth) (hu : findUsage env st.session rid = some u) :
    usageCountD env (updateUsage env rid
      (fun w => { w with aiPostsCount := w.aiPostsCount + 1 }) st).session rid
      = u.aiPostsCount + 1 := by
  have h' : findUsage env (updateUsage env rid
      (fun w => { w with aiPostsCount := w.aiPostsCount + 1 }) st).session rid
      = some { u with aiPostsCount := u.aiPostsCount + 1 } := by
    simp only [updateUsage, findUsage] at hu ⊢
    exact find?_updateFirst (usageKeyB env rid)
      (fun w => { w with aiPostsCount := w.aiPostsCount + 1 }) st.session.usage u hu
      (by simpa [usageKeyB] using List.find?_some hu)
  rw [usageCountD_of_find h']

/-! ## `scoreBranch` lemmas -/

theorem scoreBranch_frame (env : Env) (scrape : Scrape) (root : PyUser)
    (st : WorldState) :
    (scoreBranch env scrape root st).2.session.results = st.session.results ∧
    (scoreBranch env scrape root st).2.session.scrapes = st.session.scrapes ∧
    (scoreBranch env scrape root st).2.durable = st.durable ∧
    (scoreBranch env scrape root st).2.commits = st.commits ∧
    (scoreBranch env scrape root st).2.ghlCalls = st.ghlCalls ∧
    (scoreBranch env scrape root st).2.fetchCalls = st.fetchCalls := by
  unfold scoreBranch
  repeat' split
  all_goals exact ⟨rfl, rfl, rfl, rfl, rfl, rfl⟩

theorem scoreBranch_disabled (env : Env) (scrape : Scrape) (root : PyUser)
    (st : WorldState) (h : scrape.aiEnabled = false) :
    scoreBranch env scrape root st = ((none, "AI disabled for this scrape"), st) := by
  unfold scoreBranch
  rw [h]
  simp

theorem scoreBranch_shape (env : Env) (scrape : Scrape) (root : PyUser)
    (st : WorldState) : AiShape (scoreBranch env scrape root st).1.1 := by
  unfold scoreBranch
  repeat' split
  all_goals first
    | exact Or.inl rfl
    | exact ai_score_post_shape env.openaiKey (env.scoreOracle st.aiCalls)

theorem scoreBranch_usage_mono (env : Env) (scrape : Scrape) (root : PyUser)
    (st : WorldState) :
    UsageMonoL st.session.usage (scoreBranch env scrape root st).2.session.usage := by
  unfold scoreBranch
  repeat' split
  all_goals first
    | exact usageMonoL_refl _
    | exact usageMonoL_updateFirst (usageKeyB env root.id)
        (fun w => { w with aiPostsCount := w.aiPostsCount + 1 })
        (fun u => ⟨rfl, rfl, rfl, Int.le_add_one (le_refl _)⟩) st.session.usage

theorem scoreBranch_aiCalls (env : Env) (scrape : Scrape) (root : PyUser)
    (st : WorldState) :
    (scoreBranch env scrape root st).2.aiCalls = st.aiCalls ∨
    (scoreBranch env scrape root st).2.aiCalls = st.aiCalls + 1 := by
  unfold scoreBranch
  repeat' split
  all_goals first
    | exact Or.inl rfl
    | exact Or.inr rfl

/-! ## `trackProcessed` lemmas -/

theorem trackProcessed_frame (env : Env) (root : PyUser) (st : WorldState) :
    (trackProcessed env root st).session.results = st.session.results ∧
    (trackProcessed env root st).session.scrapes = st.session.scrapes ∧
    (trackProcessed env root st).aiCalls = st.aiCalls ∧
    (trackProcessed env root st).ghlCalls = st.ghlCalls ∧
    (trackProcessed env root st).fetchCalls = st.fetchCalls :=
  ⟨(ensure_frame env root.id st).1, (ensure_frame env root.id st).2.1,
   (ensure_frame env root.id st).2.2.1, (ensure_frame env root.id st).2.2.2.1,
   (ensure_frame env root.id st).2.2.2.2⟩

theorem trackProcessed_countD (env : Env) (root : PyUser) (st : WorldState) :
    usageCountD env (trackProcessed env root st).session root.id
      = usageCountD env st.session root.id := by
  unfold trackProcessed
  rw [updateUsage_countD_keep env root.id
      (fun w => { w with postsProcessedCount := w.postsProcessedCount + 1 })
      (get_or_create_usage_month env root.id st) (fun u => rfl) (fun u => rfl),
    ensure_countD]

theorem trackProcessed_found (env : Env) (root : PyUser) (st : WorldState) :
    (findUsage env (trackProcessed env root st).session root.id).isSome = true := by
  unfold trackProcessed
  rw [updateUsage_found_keep env root.id
      (fun w => { w with postsProcessedCount := w.postsProcessedCount + 1 })
      (get_or_create_usage_month env root.id st) (fun u => rfl)]
  exact ensure_found env root.id st

theorem trackProcessed_usage_mono (env : Env) (root : PyUser) (st : WorldState) :
    UsageMonoL st.session.usage (trackProcessed env root st).session.usage := by
  have h1 : UsageMonoL st.session.usage
      (get_or_create_usage_month env root.id st).session.usage := by
    rcases ensure_usage env root.id st with h | h
    · rw [h]; exact usageMonoL_refl _
    · rw [h]; exact usageMonoL_append _ _
  exact usageMonoL_trans h1 (usageMonoL_updateFirst (usageKeyB env root.id)
    (fun w => { w with postsProcessedCount := w.postsProcessedCount + 1 })
    (fun u => ⟨rfl, rfl, rfl, le_refl _⟩)
    (get_or_create_usage_month env root.id st).session.usage)

/-! ## The growth relation of a pipeline step -/

/-- What is known about every `Result` row that a run of `scrape` inserts. -/
def AddedOk (scrape : Scrape) (r : Result) : Prop :=
  r.scrapeId = scrape.id ∧ AiShape r.aiScore ∧
  (scrape.aiEnabled = false →
    r.aiScore = none ∧ r.aiReasoning = "AI disabled for this scrape")

/-- How one pipeline step may evolve the session: results are append-only
and well-shaped, ledger counters never decrease, scoring calls never
un-happen, and no scoring call is made when AI is off for the job. -/
def Grows (scrape : Scrape) (st st' : WorldState) : Prop :=
  (∃ l, st'.session.results = st.session.results ++ l ∧ ∀ r ∈ l, AddedOk scrape r) ∧
  UsageMonoL st.session.usage st'.session.usage ∧
  st.aiCalls ≤ st'.aiCalls ∧
  (scrape.aiEnabled = false → st'.aiCalls = st.aiCalls)

theorem grows_refl (scrape : Scrape) (st : WorldState) : Grows scrape st st :=
  ⟨⟨[], by simp, by simp⟩, usageMonoL_refl _, le_refl _, fun _ => rfl⟩

theorem grows_trans {scrape : Scrape} {a b c : WorldState}
    (h₁ : Grows scrape a b) (h₂ : Grows scrape b c) : Grows scrape a c := by
  obtain ⟨⟨l₁, hr₁, ha₁⟩, hm₁, hc₁, hd₁⟩ := h₁
  obtain ⟨⟨l₂, hr₂, ha₂⟩, hm₂, hc₂, hd₂⟩ := h₂
  refine ⟨⟨l₁ ++ l₂, ?_, ?_⟩, usageMonoL_trans hm₁ hm₂, le_trans hc₁ hc₂,
    fun h => (hd₂ h).trans (hd₁ h)⟩
  · rw [hr₂, hr₁, List.append_assoc]
  · intro r hr
    rcases List.mem_append.mp hr with h | h
    exacts [ha₁ r h, ha₂ r h]

/-! ## `postAdded` lemmas -/

theorem postAdded_results (env : Env) (scrape : Scrape) (kws : List String)
    (name : String) (st : WorldState) (p : RPost) (root : PyUser) :
    (postAdded env scrape kws name st p root).session.results
      = st.session.results
        ++ [mkResult scrape kws name p
              (scoreBranch env scrape root (trackProcessed env root st)).1] := by
  have h2 := (scoreBranch_frame env scrape root (trackProcessed env root st)).1
  have h1 := (trackProcessed_frame env root st).1
  simp only [postAdded, addResultState]
  split <;> simp [h2, h1]

theorem postAdded_usage_eq (env : Env) (scrape : Scrape) (kws : List String)
    (name : String) (st : WorldState) (p : RPost) (root : PyUser) :
    (postAdded env scrape kws name st p root).session.usage
      = (scoreBranch env scrape root (trackProcessed env root st)).2.session.usage := by
  simp only [postAdded, addResultState]
  split <;> rfl

theorem postAdded_aiCalls (env : Env) (scrape : Scrape) (kws : List String)
    (name : String) (st : WorldState) (p : RPost) (root : PyUser) :
    (postAdded env scrape kws name st p root).aiCalls
      = (scoreBranch env scrape root (trackProcessed env root st)).2.aiCalls := by
  simp only [postAdded, addResultState]
  split <;> rfl

theorem postAdded_grows (env : Env) (scrape : Scrape) (kws : List String)
    (name : String) (st : WorldState) (p : RPost) (root : PyUser) :
    Grows scrape st (postAdded env scrape kws name st p root) := by
  refine ⟨⟨[mkResult scrape kws name p
      (scoreBranch env scrape root (trackProcessed env root st)).1],
    postAdded_results env scrape kws name st p root, ?_⟩, ?_, ?_, ?_⟩
  · intro r hr
    rw [List.mem_singleton.mp hr]
    refine ⟨rfl, scoreBranch_shape env scrape root (trackProcessed env root st), ?_⟩
    · intro hdis
      rw [scoreBranch_disabled env scrape root (trackProcessed env root st) hdis]
      exact ⟨rfl, rfl⟩
  · rw [postAdded_usage_eq]
    exact usageMonoL_trans (trackProcessed_usage_mono env root st)
      (scoreBranch_usage_mono env scrape root (trackProcessed env root st))
  · rw [postAdded_aiCalls]
    have htp := (trackProcessed_frame env root st).2.2.1
    rcases scoreBranch_aiCalls env scrape root (trackProcessed env root st) with h | h <;>
      rw [h, htp]
    · exact Nat.le_succ _
  · intro hdis
    rw [postAdded_aiCalls,
      scoreBranch_disabled env scrape root (trackProcessed env root st) hdis]
    exact (trackProcessed_frame env root st).2.2.1

/-! ## Growth through the pipeline -/

theorem processPost_grows (env : Env) (scrape : Scrape) (kws : List String)
    (name : String) (st : WorldState) (p : RPost) (st' : WorldState)
    (h : processPost env scrape kws name st p = .ok st') : Grows scrape st st' := by
  simp only [processPost] at h
  by_cases hempty : (matchKeywords (p.title.getD "") (p.selftext.getD "") kws).isEmpty = true
  · rw [if_pos hempty] at h
    cases h
    exact grows_refl _ _
  · rw [if_neg hempty] at h
    by_cases hdup : dupExists st.session scrape.id (postExternalId p) = true
    · rw [if_pos hdup] at h
      cases h
      exact grows_refl _ _
    · rw [if_neg hdup] at h
      cases hroot : get_account_root env scrape.userId with
      | none => rw [hroot] at h; cases h
      | some root =>
        rw [hroot] at h
        cases h
        exact postAdded_grows env scrape kws name st p root

theorem processPosts_grows (env : Env) (scrape : Scrape) (kws : List String)
    (name : String) :
    ∀ (ps : List RPost) (st : WorldState),
      Grows scrape st (processPosts env scrape kws name st ps) := by
  intro ps
  induction ps with
  | nil => intro st; exact grows_refl _ _
  | cons p rest ih =>
    intro st
    unfold processPosts
    cases hp : processPost env scrape kws name st p with
    | ok st' => exact grows_trans (processPost_grows env scrape kws name st p st' hp) (ih st')
    | error m => exact grows_refl _ _

theorem processSubreddit_grows (env : Env) (scrape : Scrape) (kws : List String)
    (st : WorldState) (name : String) :
    Grows scrape st (processSubreddit env scrape kws st name) := by
  unfold processSubreddit
  have hbump : Grows scrape st { st with fetchCalls := st.fetchCalls + 1 } :=
    ⟨⟨[], by simp, by simp⟩, usageMonoL_refl _, le_refl _, fun _ => rfl⟩
  cases env.fetch name scrape.limit with
  | raise m => exact hbump
  | posts ps =>
    exact grows_trans hbump
      (processPosts_grows env scrape kws name ps { st with fetchCalls := st.fetchCalls + 1 })

theorem foldl_grows (scrape : Scrape) (f : WorldState → String → WorldState)
    (hstep : ∀ s a, Grows scrape s (f s a)) :
    ∀ (l : List String) (s : WorldState), Grows scrape s (l.foldl f s) := by
  intro l
  induction l with
  | nil => intro s; exact grows_refl _ _
  | cons a t ih => intro s; exact grows_trans (hstep s a) (ih (f s a))

theorem run_scrape_not_found (env : Env) (sid : Nat) (st : WorldState)
    (h : findScrape st.session sid = none) : run_scrape env sid st = st := by
  unfold run_scrape
  rw [h]

theorem run_scrape_inactive (env : Env) (sid : Nat) (st : WorldState)
    (scrape : Scrape) (h : findScrape st.session sid = some scrape)
    (hact : scrape.isActive = false) : run_scrape env sid st = st := by
  simp [run_scrape, h, hact]

theorem run_scrape_grows (env : Env) (sid : Nat) (st : WorldState) (scrape : Scrape)
    (h : findScrape st.session sid = some scrape) :
    Grows scrape st (run_scrape env sid st) := by
  simp only [run_scrape, h]
  split
  · exact grows_refl _ _
  · refine grows_trans (foldl_grows scrape
      (fun acc name => processSubreddit env scrape (splitCommaTrimLower scrape.keywords) acc name)
      (fun s a => processSubreddit_grows env scrape (splitCommaTrimLower scrape.keywords) s a)
      (splitCommaTrim scrape.subreddits) st) ?_
    exact ⟨⟨[], by simp [commitDb, setLastRun], by simp⟩, usageMonoL_refl _, le_refl _,
      fun _ => rfl⟩

/-! ## The quota invariant and the dedup-key invariant -/

/-- Every ledger row's AI-posts counter is within its account's plan quota
(rows of accounts with no resolvable plan are unconstrained). -/
def quotaInvL (env : Env) (l : List UsageMonth) : Bool :=
  l.all (fun u =>
    match planOfRoot env u.rootUserId with
    | some p => decide (u.aiPostsCount ≤ p.aiPostsQuota)
    | none => true)

/-- Every configured plan has a non-negative monthly quota (true of all
seeded plans). -/
def nonnegQuotasB (env : Env) : Bool :=
  env.plans.all (fun p => decide (0 ≤ p.aiPostsQuota))

/-- The uniqueness key of the index `uniq_result_scrape_post`. -/
def resKey (r : Result) : Nat × String := (r.scrapeId, r.redditPostId)

/-- No two stored results share a `(scrape_id, reddit_post_id)` pair. -/
def NodupKeysL (l : List Result) : Prop := (l.map resKey).Nodup

/-- The quota invariant, in both the session view and the durable view. -/
def QuotaW (env : Env) (st : WorldState) : Prop :=
  quotaInvL env st.session.usage = true ∧ quotaInvL env st.durable.usage = true

/-- The dedup-key invariant, in both the session view and the durable view. -/
def NodupW (st : WorldState) : Prop :=
  NodupKeysL st.session.results ∧ NodupKeysL st.durable.results

instance (l : List Result) : Decidable (NodupKeysL l) :=
  inferInstanceAs (Decidable (List.Nodup _))

instance (st : WorldState) : Decidable (NodupW st) :=
  inferInstanceAs (Decidable (_ ∧ _))

instance (env : Env) (st : WorldState) : Decidable (QuotaW env st) :=
  inferInstanceAs (Decidable (_ ∧ _))

theorem quotaInvL_mem {env : Env} {l : List UsageMonth} (h : quotaInvL env l = true)
    {u : UsageMonth} (hu : u ∈ l) {p : Plan}
    (hp : planOfRoot env u.rootUserId = some p) :
    u.aiPostsCount ≤ p.aiPostsQuota := by
  have := List.all_eq_true.mp h u hu
  rw [hp] at this
  exact of_decide_eq_true this

theorem quotaInvL_of (env : Env) (l : List UsageMonth)
    (h : ∀ u ∈ l, ∀ p, planOfRoot env u.rootUserId = some p →
      u.aiPostsCount ≤ p.aiPostsQuota) : quotaInvL env l = true := by
  apply List.all_eq_true.mpr
  intro u hu
  cases hp : planOfRoot env u.rootUserId with
  | none => rfl
  | some p => exact decide_eq_true (h u hu p hp)

theorem nonneg_plan {env : Env} (h : nonnegQuotasB env = true) {rid : Nat} {p : Plan}
    (hp : planOfRoot env rid = some p) : 0 ≤ p.aiPostsQuota := by
  have hmem : p ∈ env.plans := by
    unfold planOfRoot at hp
    split at hp
    · cases hp
    · exact List.mem_of_find?_eq_some hp
  exact of_decide_eq_true (List.all_eq_true.mp h p hmem)

theorem quotaInvL_append_zero (env : Env) (rid : Nat) (l : List UsageMonth)
    (hn : nonnegQuotasB env = true) (h : quotaInvL env l = true) :
    quotaInvL env (l ++ [⟨rid, env.nowY, env.nowM, 0, 0⟩]) = true := by
  apply quotaInvL_of
  intro u hu p hp
  rcases List.mem_append.mp hu with h' | h'
  · exact quotaInvL_mem h h' hp
  · rw [List.mem_singleton.mp h']
    rw [List.mem_singleton.mp h'] at hp
    exact nonneg_plan hn hp

theorem quotaInvL_updateFirst_keep (env : Env) (pfn : UsageMonth → Bool)
    (f : UsageMonth → UsageMonth) (l : List UsageMonth)
    (hroot : ∀ u, (f u).rootUserId = u.rootUserId)
    (hcnt : ∀ u, (f u).aiPostsCount = u.aiPostsCount)
    (h : quotaInvL env l = true) : quotaInvL env (updateFirst pfn f l) = true := by
  apply quotaInvL_of
  intro u hu p hp
  rcases mem_updateFirst pfn f l u hu with h' | ⟨w, hw, hpw, rfl⟩
  · exact quotaInvL_mem h h' hp
  · rw [hcnt w]
    rw [hroot w] at hp
    exact quotaInvL_mem h hw hp

/-! ## Quota preservation through the pipeline steps -/

theorem ensure_quota (env : Env) (rid : Nat) (st : WorldState)
    (hn : nonnegQuotasB env = true) (hi : QuotaW env st) :
    QuotaW env (get_or_create_usage_month env rid st) := by
  obtain ⟨h1, h2⟩ := hi
  unfold get_or_create_usage_month
  cases hf : findUsage env st.session rid with
  | some u => exact ⟨h1, h2⟩
  | none =>
    refine ⟨?_, ?_⟩ <;>
      exact quotaInvL_append_zero env rid st.session.usage hn h1

theorem ensure_nodup (env : Env) (rid : Nat) (st : WorldState)
    (hi : NodupW st) : NodupW (get_or_create_usage_month env rid st) := by
  obtain ⟨h1, h2⟩ := hi
  unfold get_or_create_usage_month
  cases hf : findUsage env st.session rid with
  | some u => exact ⟨h1, h2⟩
  | none => exact ⟨h1, h1⟩

theorem trackProcessed_inv (env : Env) (root : PyUser) (st : WorldState)
    (hn : nonnegQuotasB env = true) (hi : QuotaW env st) :
    QuotaW env (trackProcessed env root st) := by
  obtain ⟨h1, h2⟩ := ensure_quota env root.id st hn hi
  exact ⟨quotaInvL_updateFirst_keep env _ _ _ (fun u => rfl) (fun u => rfl) h1, h2⟩

theorem trackProcessed_nodup (env : Env) (root : PyUser) (st : WorldState)
    (hi : NodupW st) : NodupW (trackProcessed env root st) :=
  ensure_nodup env root.id st hi

/-! ### Evaluation lemmas for the four branches of `scoreBranch` -/

theorem scoreBranch_eq_score (env : Env) (scrape : Scrape) (root : PyUser)
    (st : WorldState) (plan : Plan) (hEn : scrape.aiEnabled = true)
    (hplan : get_plan_for_user env scrape.userId = some plan)
    (hguard : usageCountD env st.session root.id < plan.aiPostsQuota) :
    scoreBranch env scrape root st =
      (ai_score_post env.openaiKey (env.scoreOracle st.aiCalls),
        updateUsage env root.id (fun w => { w with aiPostsCount := w.aiPostsCount + 1 })
          { st with aiCalls := st.aiCalls + 1 }) := by
  simp [scoreBranch, hEn, hplan, hguard]

theorem scoreBranch_eq_exceeded (env : Env) (scrape : Scrape) (root : PyUser)
    (st : WorldState) (plan : Plan) (hEn : scrape.aiEnabled = true)
    (hplan : get_plan_for_user env scrape.userId = some plan)
    (hguard : ¬ usageCountD env st.session root.id < plan.aiPostsQuota) :
    scoreBranch env scrape root st =
      ((none, "AI quota exceeded (" ++ toString (usageCountD env st.session root.id)
          ++ "/" ++ toString plan.aiPostsQuota ++ ")"), st) := by
  simp [scoreBranch, hEn, hplan, hguard]

theorem scoreBranch_eq_noplan (env : Env) (scrape : Scrape) (root : PyUser)
    (st : WorldState) (hEn : scrape.aiEnabled = true)
    (hplan : get_plan_for_user env scrape.userId = none) :
    scoreBranch env scrape root st = ((none, "No active subscription"), st) := by
  simp [scoreBranch, hEn, hplan]

/-- The guarded increment of the scoring branch preserves the per-row quota
bound: the guard reads exactly the row that the increment touches. -/
theorem quotaInvL_guarded_inc (env : Env) (root : PyUser) (st : WorldState)
    (plan : Plan) (hplanR : planOfRoot env root.id = some plan)
    (hguard : usageCountD env st.session root.id < plan.aiPostsQuota)
    (h1 : quotaInvL env st.session.usage = true) :
    quotaInvL env (updateFirst (usageKeyB env root.id)
      (fun w => { w with aiPostsCount := w.aiPostsCount + 1 })
      st.session.usage) = true := by
  cases hfind : List.find? (usageKeyB env root.id) st.session.usage with
  | none =>
    rw [updateFirst_of_find?_none _ _ _ hfind]
    exact h1
  | some u₀ =>
    obtain ⟨l₁, l₂, hsplit, hl₁, hpu⟩ :=
      find?_eq_some_split (usageKeyB env root.id) st.session.usage u₀ hfind
    have hcount : usageCountD env st.session root.id = u₀.aiPostsCount :=
      usageCountD_of_find (show findUsage env st.session root.id = some u₀ from hfind)
    rw [hsplit, updateFirst_append_of_none _ _ l₁ u₀ l₂ hl₁ hpu]
    apply quotaInvL_of
    intro u hu p hp
    rcases List.mem_append.mp hu with h' | h'
    · exact quotaInvL_mem h1 (hsplit ▸ List.mem_append_left _ h') hp
    · rcases List.mem_cons.mp h' with rfl | h''

      · have hru : u₀.rootUserId = root.id := usageKeyB_rootUserId hpu
        have hp' : planOfRoot env root.id = some p := by
          rw [← hru]
          exact hp
        have hpp : p = plan := by
          rw [hplanR] at hp'
          exact (Option.some.inj hp').symm
        subst hpp
        show u₀.aiPostsCount + 1 ≤ p.aiPostsQuota
        rw [hcount] at hguard
        omega
      · exact quotaInvL_mem h1
          (hsplit ▸ List.mem_append_right _ (List.mem_cons_of_mem _ h'')) hp

theorem scoreBranch_inv (env : Env) (scrape : Scrape) (root : PyUser) (st : WorldState)
    (hroot : get_account_root env scrape.userId = some root)
    (hi : QuotaW env st) :
    QuotaW env (scoreBranch env scrape root st).2 := by
  obtain ⟨h1, h2⟩ := hi
  by_cases hEn : scrape.aiEnabled = true
  · cases hplan : get_plan_for_user env scrape.userId with
    | none =>
      rw [scoreBranch_eq_noplan env scrape root st hEn hplan]
      exact ⟨h1, h2⟩
    | some plan =>
      by_cases hguard : usageCountD env st.session root.id < plan.aiPostsQuota
      · rw [scoreBranch_eq_score env scrape root st plan hEn hplan hguard]
        refine ⟨?_, h2⟩
        have hplanR : planOfRoot env root.id = some plan := by
          unfold get_plan_for_user at hplan
          rw [hroot] at hplan
          exact hplan
        exact quotaInvL_guarded_inc env root st plan hplanR hguard h1
      · rw [scoreBranch_eq_exceeded env scrape root st plan hEn hplan hguard]
        exact ⟨h1, h2⟩
  · have hEn' : scrape.aiEnabled = false := by simpa using hEn
    rw [scoreBranch_disabled env scrape root st hEn']
    exact ⟨h1, h2⟩

/-! ## Dedup-key preservation -/

theorem nodupKeysL_append {l : List Result} {r : Result} (h : NodupKeysL l)
    (hfresh : ∀ x ∈ l, resKey x ≠ resKey r) : NodupKeysL (l ++ [r]) := by
  unfold NodupKeysL at h ⊢
  rw [List.map_append]
  refine List.Nodup.append h (by simp) ?_
  intro a ha hb
  obtain ⟨x, hx, rfl⟩ := List.mem_map.mp ha
  simp only [List.map_cons, List.map_nil, List.mem_singleton] at hb
  exact hfresh x hx hb

/-- A negative dedup-gate answer means no stored row carries the key. -/
theorem dupExists_false_fresh {v : DBView} {sid : Nat} {pid : String}
    (h : dupExists v sid pid = false) :
    ∀ x ∈ v.results, resKey x ≠ (sid, pid) := by
  intro x hx hkey
  unfold dupExists at h
  cases hf : v.results.find? (fun r => r.scrapeId == sid && r.redditPostId == pid) with
  | some u => rw [hf] at h; cases h
  | none =>
    apply List.find?_eq_none.mp hf x hx
    have h1 : x.scrapeId = sid := congrArg Prod.fst hkey
    have h2 : x.redditPostId = pid := congrArg Prod.snd hkey
    simp [h1, h2]

theorem addResult_nodup (st : WorldState) (r : Result)
    (hfresh : ∀ x ∈ st.session.results, resKey x ≠ resKey r)
    (hi : NodupW st) : NodupW (addResultState st r) :=
  ⟨nodupKeysL_append hi.1 hfresh, hi.2⟩

/-! ## Invariant preservation through the pipeline -/

theorem postAdded_quota (env : Env) (scrape : Scrape) (kws : List String)
    (name : String) (st : WorldState) (p : RPost) (root : PyUser)
    (hroot : get_account_root env scrape.userId = some root)
    (hn : nonnegQuotasB env = true)
    (hi : QuotaW env st) : QuotaW env (postAdded env scrape kws name st p root) := by
  have hi3 := scoreBranch_inv env scrape root (trackProcessed env root st) hroot
    (trackProcessed_inv env root st hn hi)
  simp only [postAdded]
  split
  · exact ⟨hi3.1, hi3.2⟩
  · exact hi3

theorem postAdded_nodup (env : Env) (scrape : Scrape) (kws : List String)
    (name : String) (st : WorldState) (p : RPost) (root : PyUser)
    (hdup : dupExists st.session scrape.id (postExternalId p) = false)
    (hi : NodupW st) : NodupW (postAdded env scrape kws name st p root) := by
  have hi2 := trackProcessed_nodup env root st hi
  have hsb : NodupW (scoreBranch env scrape root (trackProcessed env root st)).2 := by
    have hfr := scoreBranch_frame env scrape root (trackProcessed env root st)
    exact ⟨by rw [hfr.1]; exact hi2.1, by rw [hfr.2.2.1]; exact hi2.2⟩
  have hres2 : (scoreBranch env scrape root (trackProcessed env root st)).2.session.results
      = st.session.results := by
    rw [(scoreBranch_frame env scrape root (trackProcessed env root st)).1,
      (trackProcessed_frame env root st).1]
  have hfresh : ∀ x ∈ (scoreBranch env scrape root (trackProcessed env root st)).2.session.results,
      resKey x ≠ resKey (mkResult scrape kws name p
        (scoreBranch env scrape root (trackProcessed env root st)).1) := by
    rw [hres2]
    intro x hx
    exact dupExists_false_fresh hdup x hx
  have hi4 := addResult_nodup _ _ hfresh hsb
  simp only [postAdded]
  split
  · exact ⟨hi4.1, hi4.2⟩
  · exact hi4

theorem processPost_eq_added (env : Env) (scrape : Scrape) (kws : List String)
    (name : String) (st : WorldState) (p : RPost)
    (hne : ¬ (matchKeywords (p.title.getD "") (p.selftext.getD "") kws).isEmpty = true)
    (hdup : dupExists st.session scrape.id (postExternalId p) = false)
    (root : PyUser) (hroot : get_account_root env scrape.userId = some root) :
    processPost env scrape kws name st p
      = .ok (postAdded env scrape kws name st p root) := by
  simp [processPost, hne, hdup, hroot]

theorem processPost_skip_dup (env : Env) (scrape : Scrape) (kws : List String)
    (name : String) (st : WorldState) (p : RPost)
    (hdup : dupExists st.session scrape.id (postExternalId p) = true) :
    processPost env scrape kws name st p = .ok st := by
  by_cases hempty : (matchKeywords (p.title.getD "") (p.selftext.getD "") kws).isEmpty = true
  · simp [processPost, hempty]
  · simp [processPost, hempty, hdup]

theorem processPost_quota (env : Env) (scrape : Scrape) (kws : List String)
    (name : String) (st : WorldState) (p : RPost) (st' : WorldState)
    (hn : nonnegQuotasB env = true)
    (h : processPost env scrape kws name st p = .ok st')
    (hi : QuotaW env st) : QuotaW env st' := by
  simp only [processPost] at h
  by_cases hempty : (matchKeywords (p.title.getD "") (p.selftext.getD "") kws).isEmpty = true
  · rw [if_pos hempty] at h; cases h; exact hi
  · rw [if_neg hempty] at h
    by_cases hdup : dupExists st.session scrape.id (postExternalId p) = true
    · rw [if_pos hdup] at h; cases h; exact hi
    · rw [if_neg hdup] at h
      cases hroot : get_account_root env scrape.userId with
      | none => rw [hroot] at h; cases h
      | some root =>
        rw [hroot] at h; cases h
        exact postAdded_quota env scrape kws name st p root hroot hn hi

theorem processPost_nodup (env : Env) (scrape : Scrape) (kws : List String)
    (name : String) (st : WorldState) (p : RPost) (st' : WorldState)
    (h : processPost env scrape kws name st p = .ok st')
    (hi : NodupW st) : NodupW st' := by
  simp only [processPost] at h
  by_cases hempty : (matchKeywords (p.title.getD "") (p.selftext.getD "") kws).isEmpty = true
  · rw [if_pos hempty] at h; cases h; exact hi
  · rw [if_neg hempty] at h
    by_cases hdup : dupExists st.session scrape.id (postExternalId p) = true
    · rw [if_pos hdup] at h; cases h; exact hi
    · rw [if_neg hdup] at h
      cases hroot : get_account_root env scrape.userId with
      | none => rw [hroot] at h; cases h
      | some root =>
        rw [hroot] at h; cases h
        exact postAdded_nodup env scrape kws name st p root (by simpa using hdup) hi

theorem processPosts_quota (env : Env) (scrape : Scrape) (kws : List String)
    (name : String) (hn : nonnegQuotasB env = true) :
    ∀ (ps : List RPost) (st : WorldState), QuotaW env st →
      QuotaW env (processPosts env scrape kws name st ps) := by
  intro ps
  induction ps with
  | nil => intro st hi; exact hi
  | cons p rest ih =>
    intro st hi
    unfold processPosts
    cases hp : processPost env scrape kws name st p with
    | ok st' => exact ih st' (processPost_quota env scrape kws name st p st' hn hp hi)
    | error m => exact hi

theorem processPosts_nodup (env : Env) (scrape : Scrape) (kws : List String)
    (name : String) :
    ∀ (ps : List RPost) (st : WorldState), NodupW st →
      NodupW (processPosts env scrape kws name st ps) := by
  intro ps
  induction ps with
  | nil => intro st hi; exact hi
  | cons p rest ih =>
    intro st hi
    unfold processPosts
    cases hp : processPost env scrape kws name st p with
    | ok st' => exact ih st' (processPost_nodup env scrape kws name st p st' hp hi)
    | error m => exact hi

theorem processSubreddit_quota (env : Env) (scrape : Scrape) (kws : List String)
    (st : WorldState) (name : String) (hn : nonnegQuotasB env = true)
    (hi : QuotaW env st) : QuotaW env (processSubreddit env scrape kws st name) := by
  unfold processSubreddit
  have hbump : QuotaW env { st with fetchCalls := st.fetchCalls + 1 } := hi
  cases env.fetch name scrape.limit with
  | raise m => exact hbump
  | posts ps => exact processPosts_quota env scrape kws name hn ps _ hbump

theorem processSubreddit_nodup (env : Env) (scrape : Scrape) (kws : List String)
    (st : WorldState) (name : String)
    (hi : NodupW st) : NodupW (processSubreddit env scrape kws st name) := by
  unfold processSubreddit
  have hbump : NodupW { st with fetchCalls := st.fetchCalls + 1 } := hi
  cases env.fetch name scrape.limit with
  | raise m => exact hbump
  | posts ps => exact processPosts_nodup env scrape kws name ps _ hbump

theorem foldl_preserve {α σ : Type} (P : σ → Prop) (f : σ → α → σ)
    (hstep : ∀ s a, P s → P (f s a)) :
    ∀ (l : List α) (s : σ), P s → P (l.foldl f s) := by
  intro l
  induction l with
  | nil => intro s hs; exact hs
  | cons a t ih => intro s hs; exact ih (f s a) (hstep s a hs)

theorem commitDb_quota (env : Env) (st : WorldState) (hi : QuotaW env st) :
    QuotaW env (commitDb st) :=
  ⟨hi.1, hi.1⟩

theorem commitDb_nodup (st : WorldState) (hi : NodupW st) : NodupW (commitDb st) :=
  ⟨hi.1, hi.1⟩

theorem setLastRun_quota (env : Env) (sid : Nat) (st : WorldState)
    (hi : QuotaW env st) : QuotaW env (setLastRun env sid st) := hi

theorem setLastRun_nodup (env : Env) (sid : Nat) (st : WorldState)
    (hi : NodupW st) : NodupW (setLastRun env sid st) := hi

/-- Evaluation of a run of an existing, active job. -/
theorem run_scrape_active (env : Env) (sid : Nat) (st : WorldState) (scrape : Scrape)
    (h : findScrape st.session sid = some scrape) (hact : scrape.isActive = true) :
    run_scrape env sid st =
      commitDb (setLastRun env scrape.id
        ((splitCommaTrim scrape.subreddits).foldl
          (fun acc name => processSubreddit env scrape
            (splitCommaTrimLower scrape.keywords) acc name) st)) := by
  simp [run_scrape, h, hact]

theorem run_scrape_quota (env : Env) (sid : Nat) (st : WorldState)
    (hn : nonnegQuotasB env = true) (hi : QuotaW env st) :
    QuotaW env (run_scrape env sid st) := by
  cases h : findScrape st.session sid with
  | none => rw [run_scrape_not_found env sid st h]; exact hi
  | some scrape =>
    by_cases hact : scrape.isActive = true
    · rw [run_scrape_active env sid st scrape h hact]
      apply commitDb_quota
      apply setLastRun_quota
      exact foldl_preserve (QuotaW env) _
        (fun s a => processSubreddit_quota env scrape _ s a hn) _ st hi
    · rw [run_scrape_inactive env sid st scrape h (by simpa using hact)]
      exact hi

theorem run_scrape_nodup (env : Env) (sid : Nat) (st : WorldState)
    (hi : NodupW st) : NodupW (run_scrape env sid st) := by
  cases h : findScrape st.session sid with
  | none => rw [run_scrape_not_found env sid st h]; exact hi
  | some scrape =>
    by_cases hact : scrape.isActive = true
    · rw [run_scrape_active env sid st scrape h hact]
      apply commitDb_nodup
      apply setLastRun_nodup
      exact foldl_preserve NodupW _
        (fun s a => processSubreddit_nodup env scrape _ s a) _ st hi
    · rw [run_scrape_inactive env sid st scrape h (by simpa using hact)]
      exact hi

/-! ## Check-then-increment discipline of the scoring call -/

theorem usageCountD_congr (env : Env) {v w : DBView} (rid : Nat)
    (h : v.usage = w.usage) : usageCountD env v rid = usageCountD env w rid := by
  simp [usageCountD, findUsage, h]

/-- Per post, either no scoring call happens, or exactly one happens; in
the latter case the quota was checked to have headroom immediately before
the call, and the counter is exactly one higher afterwards. -/
theorem postAdded_call (env : Env) (scrape : Scrape) (kws : List String)
    (name : String) (st : WorldState) (p : RPost) (root : PyUser) :
    (postAdded env scrape kws name st p root).aiCalls = st.aiCalls ∨
    ((postAdded env scrape kws name st p root).aiCalls = st.aiCalls + 1 ∧
      scrape.aiEnabled = true ∧
      ∃ plan, get_plan_for_user env scrape.userId = some plan ∧
        usageCountD env st.session root.id < plan.aiPostsQuota ∧
        usageCountD env (postAdded env scrape kws name st p root).session root.id
          = usageCountD env st.session root.id + 1) := by
  have haiC := postAdded_aiCalls env scrape kws name st p root
  have husage := postAdded_usage_eq env scrape kws name st p root
  have htpA : (trackProcessed env root st).aiCalls = st.aiCalls :=
    (trackProcessed_frame env root st).2.2.1
  have htpC : usageCountD env (trackProcessed env root st).session root.id
      = usageCountD env st.session root.id := trackProcessed_countD env root st
  by_cases hEn : scrape.aiEnabled = true
  · cases hplan : get_plan_for_user env scrape.userId with
    | none =>
      left
      rw [haiC, scoreBranch_eq_noplan env scrape root (trackProcessed env root st) hEn hplan]
      exact htpA
    | some plan =>
      by_cases hguard : usageCountD env (trackProcessed env root st).session root.id
          < plan.aiPostsQuota
      · right
        have hsb := scoreBranch_eq_score env scrape root (trackProcessed env root st)
          plan hEn hplan hguard
        obtain ⟨u, hu⟩ := Option.isSome_iff_exists.mp (trackProcessed_found env root st)
        have hcd : usageCountD env (trackProcessed env root st).session root.id
            = u.aiPostsCount := usageCountD_of_find hu
        refine ⟨?_, hEn, plan, ?_, ?_, ?_⟩
        · rw [haiC, hsb]
          show (trackProcessed env root st).aiCalls + 1 = st.aiCalls + 1
          rw [htpA]
        · first
          | exact hplan
          | rfl
        · rw [← htpC]; exact hguard
        · have hinc := updateUsage_countD_inc env root.id
            { trackProcessed env root st with
              aiCalls := (trackProcessed env root st).aiCalls + 1 } u hu
          rw [usageCountD_congr env root.id husage, hsb]
          rw [show usageCountD env (updateUsage env root.id
              (fun w => { w with aiPostsCount := w.aiPostsCount + 1 })
              { trackProcessed env root st with
                aiCalls := (trackProcessed env root st).aiCalls + 1 }).session root.id
              = u.aiPostsCount + 1 from hinc]
          rw [← htpC, hcd]
      · left
        rw [haiC, scoreBranch_eq_exceeded env scrape root (trackProcessed env root st)
          plan hEn hplan hguard]
        exact htpA
  · left
    have hEn' : scrape.aiEnabled = false := by simpa using hEn
    rw [haiC, scoreBranch_disabled env scrape root (trackProcessed env root st) hEn']
    exact htpA

/-! ## Quota-exhaustion behaviour (per post) -/

theorem postAdded_quota_exceeded (env : Env) (scrape : Scrape) (kws : List String)
    (name : String) (st : WorldState) (p : RPost) (root : PyUser) (plan : Plan)
    (hEn : scrape.aiEnabled = true)
    (hplan : get_plan_for_user env scrape.userId = some plan)
    (hq : plan.aiPostsQuota ≤ usageCountD env st.session root.id) :
    (postAdded env scrape kws name st p root).session.results
      = st.session.results ++
        [mkResult scrape kws name p
          (none, "AI quota exceeded (" ++ toString (usageCountD env st.session root.id)
            ++ "/" ++ toString plan.aiPostsQuota ++ ")")] ∧
    (postAdded env scrape kws name st p root).aiCalls = st.aiCalls := by
  have hguard : ¬ usageCountD env (trackProcessed env root st).session root.id
      < plan.aiPostsQuota := by
    rw [trackProcessed_countD]
    omega
  have hsb := scoreBranch_eq_exceeded env scrape root (trackProcessed env root st)
    plan hEn hplan hguard
  constructor
  · rw [postAdded_results env scrape kws name st p root, hsb,
      trackProcessed_countD env root st]
  · rw [postAdded_aiCalls env scrape kws name st p root, hsb]
    exact (trackProcessed_frame env root st).2.2.1

/-! ## Per-source failure containment -/

theorem processSubreddit_raise (env : Env) (scrape : Scrape) (kws : List String)
    (st : WorldState) (name : String) (m : String)
    (h : env.fetch name scrape.limit = .raise m) :
    processSubreddit env scrape kws st name
      = { st with fetchCalls := st.fetchCalls + 1 } := by
  simp [processSubreddit, h]

theorem run_scrape_skips_failed_source (env : Env) (sid : Nat) (st : WorldState)
    (scrape : Scrape) (a : String) (rest : List String) (m : String)
    (h : findScrape st.session sid = some scrape) (hact : scrape.isActive = true)
    (hsubs : splitCommaTrim scrape.subreddits = a :: rest)
    (hfail : env.fetch a scrape.limit = .raise m) :
    run_scrape env sid st =
      commitDb (setLastRun env scrape.id
        (rest.foldl (fun acc name => processSubreddit env scrape
            (splitCommaTrimLower scrape.keywords) acc name)
          { st with fetchCalls := st.fetchCalls + 1 })) := by
  rw [run_scrape_active env sid st scrape h hact, hsubs, List.foldl_cons,
    processSubreddit_raise env scrape (splitCommaTrimLower scrape.keywords) st a m hfail]

theorem processPosts_error (env : Env) (scrape : Scrape) (kws : List String)
    (name : String) (st : WorldState) (p : RPost) (ps : List RPost) (m : String)
    (h : processPost env scrape kws name st p = .error m) :
    processPosts env scrape kws name st (p :: ps) = st := by
  unfold processPosts
  rw [h]

/-! ## Remaining claim-support lemmas -/

/-- Check-then-increment discipline lifted to `processPost`. -/
theorem processPost_call (env : Env) (scrape : Scrape) (kws : List String)
    (name : String) (st : WorldState) (p : RPost) (st' : WorldState)
    (h : processPost env scrape kws name st p = .ok st') :
    st'.aiCalls = st.aiCalls ∨
    (st'.aiCalls = st.aiCalls + 1 ∧ scrape.aiEnabled = true ∧
      ∃ root plan, get_account_root env scrape.userId = some root ∧
        get_plan_for_user env scrape.userId = some plan ∧
        usageCountD env st.session root.id < plan.aiPostsQuota ∧
        usageCountD env st'.session root.id
          = usageCountD env st.session root.id + 1) := by
  simp only [processPost] at h
  by_cases hempty : (matchKeywords (p.title.getD "") (p.selftext.getD "") kws).isEmpty = true
  · rw [if_pos hempty] at h; cases h; exact Or.inl rfl
  · rw [if_neg hempty] at h
    by_cases hdup : dupExists st.session scrape.id (postExternalId p) = true
    · rw [if_pos hdup] at h; cases h; exact Or.inl rfl
    · rw [if_neg hdup] at h
      cases hroot : get_account_root env scrape.userId with
      | none => rw [hroot] at h; cases h
      | some root =>
        rw [hroot] at h; cases h
        rcases postAdded_call env scrape kws name st p root with h' | ⟨h1, h2, plan, h3, h4, h5⟩
        · exact Or.inl h'
        · refine Or.inr ⟨h1, h2, root, plan, ?_, h3, h4, h5⟩
          first
          | exact hroot
          | rfl

theorem run_scrape_usage_mono (env : Env) (sid : Nat) (st : WorldState) :
    UsageMonoL st.session.usage (run_scrape env sid st).session.usage := by
  cases h : findScrape st.session sid with
  | none => rw [run_scrape_not_found env sid st h]; exact usageMonoL_refl _
  | some scrape => exact (run_scrape_grows env sid st scrape h).2.1

/-! ## Matcher refinement -/

theorem matchKeywords_eq_spec (title body : String) (K : List String)
    (h : ∀ kw ∈ K, lowerStr kw = kw) :
    matchKeywords title body K = specMatch title body K := by
  unfold matchKeywords specMatch
  apply List.filter_congr
  intro kw hkw
  unfold specCaseInsensitiveSub
  rw [h kw hkw]

/-- The state delivered by a per-post step, with a fallback value (used to
name concrete intermediate states). -/
def exceptStateD (e : Except String WorldState) (d : WorldState) : WorldState :=
  match e with
  | .ok s => s
  | .error _ => d

/-! ## Claims -/

/-- C1 (as stated, refuted): with the credential absent, `ai_score_post`
returns `(0, "AI disabled (missing OPENAI_API_KEY)")` — the integer
sentinel `0`, not the null the claim requires (the docstring of the
source function itself says `(0, 'AI unavailable')`). -/
theorem c1_scoring_failure_counterexample :
    ai_score_post "" (.respond 7 "great")
      = (some 0, "AI disabled (missing OPENAI_API_KEY)") ∧
    (some (0 : Int) ≠ (none : Option Int)) := by
  constructor
  · rfl
  · decide

/-- C1 (amended): for every call of `ai_score_post` in which the external
credential is absent or the external call fails, the result is the pair
`(0, <non-empty diagnostic reason>)` — the sentinel score `0` rather than
null — and the call never raises (the model is a total function: the
missing-key path returns before the `try`, and the `except` of the source
catches everything raised inside it). -/
theorem ai_score_post_nokey (o : ScoreOracle) :
    ai_score_post "" o = (some 0, "AI disabled (missing OPENAI_API_KEY)") := rfl

theorem ai_score_post_raise (k : String) (hk : k ≠ "") (m : String) :
    ai_score_post k (.raise m) = (some 0, "AI unavailable") := by
  simp [ai_score_post, hk]

theorem c1_scoring_failure_amended (k : String) (o : ScoreOracle)
    (h : k = "" ∨ ∃ m, o = .raise m) :
    (ai_score_post k o).1 = some 0 ∧ (ai_score_post k o).2 ≠ "" := by
  rcases h with rfl | ⟨m, rfl⟩
  · rw [ai_score_post_nokey o]
    exact ⟨rfl, by decide⟩
  · by_cases hk : k = ""
    · subst hk
      rw [ai_score_post_nokey]
      exact ⟨rfl, by decide⟩
    · rw [ai_score_post_raise k hk m]
      exact ⟨rfl, by decide⟩

theorem c1_scoring_failure_witness :
    ((("" : String) = "" ∨ ∃ m, ScoreOracle.respond 7 "x" = ScoreOracle.raise m) ∧
      ((ai_score_post "" (.respond 7 "x")).1 = some 0 ∧
        (ai_score_post "" (.respond 7 "x")).2 ≠ "")) ∧
    ((("sk" : String) = "" ∨ ∃ m, ScoreOracle.raise "timeout" = ScoreOracle.raise m) ∧
      ((ai_score_post "sk" (.raise "timeout")).1 = some 0 ∧
        (ai_score_post "sk" (.raise "timeout")).2 ≠ "")) :=
  ⟨⟨Or.inl rfl, c1_scoring_failure_amended "" (.respond 7 "x") (Or.inl rfl)⟩,
   ⟨Or.inr ⟨"timeout", rfl⟩,
    c1_scoring_failure_amended "sk" (.raise "timeout") (Or.inr ⟨"timeout", rfl⟩)⟩⟩

/-! ### C2 -/

def scrapeC2 : Scrape :=
  { id := 1, subreddits := "sub", keywords := "help", limit := 50, userId := 1,
    lastRun := none, isActive := true, aiGuidance := none, aiEnabled := true }

def postC2 : RPost :=
  { title := some "Need help with books", selftext := none, author := "alice",
    permalink := "/r/sub/1", pid := some "p1", score := 3 }

def dbC2 : DBView := { scrapes := [scrapeC2], results := [], usage := [] }

/-- No scoring credential is configured, so scoring degrades per post. -/
def envC2 : Env :=
  { users := [⟨1, none⟩], plans := [⟨1, 10⟩], subscriptions := [⟨1, 1, true⟩],
    openaiKey := "", aiMinScore := 6, nowY := 2026, nowM := 10, nowTime := 5,
    fetch := fun _ _ => .posts [postC2], scoreOracle := fun _ => .respond 7 "ok" }

def stC2 : WorldState :=
  { durable := dbC2, session := dbC2, commits := 0, aiCalls := 0, ghlCalls := 0,
    fetchCalls := 0 }

/-- C2 (as stated, refuted): a pipeline run whose scoring call degrades
(missing credential) persists a `Result` with `ai_score = 0` — neither
null nor in `[1, 10]`. -/
theorem c2_score_shape_counterexample :
    (run_scrape envC2 1 stC2).session.results.map (fun r => r.aiScore) = [some 0] ∧
    ¬ (some (0 : Int) = (none : Option Int)) ∧
    ¬ (1 ≤ (0 : Int) ∧ (0 : Int) ≤ 10) := by
  decide

/-- C2 (amended): every `Result` created by a run has `ai_score` null, or
the sentinel `0` recorded when scoring was unavailable, or an integer in
`[1, 10]`; and a numeric score from a successful scoring response is
clamped into `[1, 10]` rather than rejected. -/
theorem c2_score_shape_amended :
    (∀ (env : Env) (sid : Nat) (st : WorldState),
      ∃ l, (run_scrape env sid st).session.results = st.session.results ++ l ∧
        ∀ r ∈ l, AiShape r.aiScore) ∧
    (∀ (k : String) (s : Int) (re : String), k ≠ "" →
      (ai_score_post k (.respond s re)).1 = some (clampScore s) ∧
        1 ≤ clampScore s ∧ clampScore s ≤ 10) := by
  constructor
  · intro env sid st
    cases h : findScrape st.session sid with
    | none =>
      rw [run_scrape_not_found env sid st h]
      exact ⟨[], by simp, by simp⟩
    | some scrape =>
      obtain ⟨⟨l, hres, hok⟩, hm, hc, hd⟩ := run_scrape_grows env sid st scrape h
      exact ⟨l, hres, fun r hr => (hok r hr).2.1⟩
  · intro k s re hk
    refine ⟨?_, (clampScore_bounds s).1, (clampScore_bounds s).2⟩
    simp [ai_score_post, hk]

theorem c2_score_shape_witness :
    (∃ l, (run_scrape envC2 1 stC2).session.results = stC2.session.results ++ l ∧
      ∀ r ∈ l, AiShape r.aiScore) ∧
    ((("sk" : String) ≠ "") ∧
      ((ai_score_post "sk" (.respond 99 "hot")).1 = some (clampScore 99) ∧
        1 ≤ clampScore 99 ∧ clampScore 99 ≤ 10)) :=
  ⟨c2_score_shape_amended.1 envC2 1 stC2,
   ⟨by decide, c2_score_shape_amended.2 "sk" 99 "hot" (by decide)⟩⟩

/-! ### C6 -/

/-- C6: the matcher returns exactly the subset of the (already
lower-cased) keywords occurring as a case-insensitive substring of
`title ++ " " ++ body` (refinement against the spec-modelled
`specMatch`); its output is always a subset of the keyword list; the
empty keyword list matches nothing; and an absent (`None`) post body is
read as the empty string. -/
theorem c6_matcher_theorem (title body : String) (K : List String)
    (h : ∀ kw ∈ K, lowerStr kw = kw) :
    matchKeywords title body K = specMatch title body K ∧
    (∀ kw ∈ matchKeywords title body K, kw ∈ K) ∧
    matchKeywords title body [] = [] ∧
    (∀ p : RPost, p.selftext = none → p.selftext.getD "" = "") := by
  refine ⟨matchKeywords_eq_spec title body K h, ?_, rfl, ?_⟩
  · intro kw hkw
    exact List.mem_of_mem_filter hkw
  · intro p hp
    rw [hp]
    rfl

theorem c6_matcher_witness :
    (∀ kw ∈ ["hello"], lowerStr kw = kw) ∧
    (matchKeywords "Hello World" "" ["hello"] = specMatch "Hello World" "" ["hello"] ∧
      (∀ kw ∈ matchKeywords "Hello World" "" ["hello"], kw ∈ ["hello"]) ∧
      matchKeywords "Hello World" "" [] = [] ∧
      (∀ p : RPost, p.selftext = none → p.selftext.getD "" = "")) ∧
    matchKeywords "Hello World" "" ["hello"] = ["hello"] :=
  ⟨by decide, c6_matcher_theorem "Hello World" "" ["hello"] (by decide), by decide⟩

/-! ### C3 -/

def scrapeC3 : Scrape :=
  { id := 1, subreddits := "sub", keywords := "help", limit := 50, userId := 1,
    lastRun := none, isActive := true, aiGuidance := none, aiEnabled := true }

def resC3 : Result :=
  { scrapeId := 1, title := "Need help", author := "bob", subreddit := "sub",
    url := "https://reddit.com/r/sub/1", score := 1, keywordsFound := "help",
    aiScore := some 7, aiReasoning := "ok", redditPostId := "p1", isHidden := false }

def postC3 : RPost :=
  { title := some "Need help", selftext := none, author := "bob",
    permalink := "/r/sub/1", pid := some "p1", score := 1 }

def dbC3 : DBView := { scrapes := [scrapeC3], results := [resC3], usage := [] }

def envC3 : Env :=
  { users := [⟨1, none⟩], plans := [⟨1, 10⟩], subscriptions := [⟨1, 1, true⟩],
    openaiKey := "sk", aiMinScore := 6, nowY := 2026, nowM := 10, nowTime := 5,
    fetch := fun _ _ => .posts [postC3], scoreOracle := fun _ => .respond 7 "ok" }

def stC3 : WorldState :=
  { durable := dbC3, session := dbC3, commits := 0, aiCalls := 0, ghlCalls := 0,
    fetchCalls := 0 }

/-- C3: recording a `(job id, external post id)` pair that is already
stored is silently skipped — the per-post step returns `.ok` with the
state unchanged, raising nothing — and a run preserves the
one-row-per-pair property of the result table (session and durable
views), so recording the same pair twice leaves exactly one stored row. -/
theorem c3_dedup_theorem :
    (∀ (env : Env) (scrape : Scrape) (kws : List String) (name : String)
      (st : WorldState) (p : RPost),
      dupExists st.session scrape.id (postExternalId p) = true →
      processPost env scrape kws name st p = .ok st) ∧
    (∀ (env : Env) (sid : Nat) (st : WorldState),
      NodupW st → NodupW (run_scrape env sid st)) :=
  ⟨fun env scrape kws name st p h => processPost_skip_dup env scrape kws name st p h,
   fun env sid st hi => run_scrape_nodup env sid st hi⟩

theorem c3_dedup_witness :
    (dupExists stC3.session scrapeC3.id (postExternalId postC3) = true ∧
      processPost envC3 scrapeC3 ["help"] "sub" stC3 postC3 = .ok stC3) ∧
    (NodupW stC3 ∧ NodupW (run_scrape envC3 1 stC3)) :=
  ⟨⟨by decide, c3_dedup_theorem.1 envC3 scrapeC3 ["help"] "sub" stC3 postC3 (by decide)⟩,
   ⟨by decide, c3_dedup_theorem.2 envC3 1 stC3 (by decide)⟩⟩

/-! ### C4 -/

def scrapeC4 : Scrape :=
  { id := 1, subreddits := "sub", keywords := "help", limit := 50, userId := 1,
    lastRun := none, isActive := true, aiGuidance := none, aiEnabled := true }

def postC4 : RPost :=
  { title := some "Please help me", selftext := none, author := "carol",
    permalink := "/r/sub/2", pid := some "p2", score := 9 }

def dbC4 : DBView := { scrapes := [scrapeC4], results := [], usage := [] }

def envC4 : Env :=
  { users := [⟨1, none⟩], plans := [⟨1, 2⟩], subscriptions := [⟨1, 1, true⟩],
    openaiKey := "sk", aiMinScore := 6, nowY := 2026, nowM := 10, nowTime := 5,
    fetch := fun _ _ => .posts [postC4], scoreOracle := fun _ => .respond 8 "hot" }

def stC4 : WorldState :=
  { durable := dbC4, session := dbC4, commits := 0, aiCalls := 0, ghlCalls := 0,
    fetchCalls := 0 }

def c4after : WorldState :=
  exceptStateD (processPost envC4 scrapeC4 ["help"] "sub" stC4 postC4) stC4

/-- C4: (i) a run keeps every ledger counter within the account plan's
monthly quota, in both the session and the durable view, given that every
plan's quota is non-negative and the bound held before the run; (ii) every
ledger row survives a run with the same key and a counter at least as
large (monotonic non-decrease); (iii) per post, either no scoring call is
made, or exactly one is made, and then the quota had headroom when it was
checked immediately before the call and the counter is exactly one higher
afterwards — the check is per post, not once at run start. -/
theorem c4_quota_theorem :
    (∀ (env : Env) (sid : Nat) (st : WorldState),
      nonnegQuotasB env = true → QuotaW env st → QuotaW env (run_scrape env sid st)) ∧
    (∀ (env : Env) (sid : Nat) (st : WorldState),
      UsageMonoL st.session.usage (run_scrape env sid st).session.usage) ∧
    (∀ (env : Env) (scrape : Scrape) (kws : List String) (name : String)
      (st : WorldState) (p : RPost) (st' : WorldState),
      processPost env scrape kws name st p = .ok st' →
      st'.aiCalls = st.aiCalls ∨
      (st'.aiCalls = st.aiCalls + 1 ∧ scrape.aiEnabled = true ∧
        ∃ root plan, get_account_root env scrape.userId = some root ∧
          get_plan_for_user env scrape.userId = some plan ∧
          usageCountD env st.session root.id < plan.aiPostsQuota ∧
          usageCountD env st'.session root.id
            = usageCountD env st.session root.id + 1)) :=
  ⟨fun env sid st hn hq => run_scrape_quota env sid st hn hq,
   fun env sid st => run_scrape_usage_mono env sid st,
   fun env scrape kws name st p st' h => processPost_call env scrape kws name st p st' h⟩

theorem c4_quota_witness :
    (nonnegQuotasB envC4 = true ∧ QuotaW envC4 stC4 ∧
      QuotaW envC4 (run_scrape envC4 1 stC4)) ∧
    UsageMonoL stC4.session.usage (run_scrape envC4 1 stC4).session.usage ∧
    (processPost envC4 scrapeC4 ["help"] "sub" stC4 postC4 = .ok c4after ∧
      (c4after.aiCalls = stC4.aiCalls ∨
        (c4after.aiCalls = stC4.aiCalls + 1 ∧ scrapeC4.aiEnabled = true ∧
          ∃ root plan, get_account_root envC4 scrapeC4.userId = some root ∧
            get_plan_for_user envC4 scrapeC4.userId = some plan ∧
            usageCountD envC4 stC4.session root.id < plan.aiPostsQuota ∧
            usageCountD envC4 c4after.session root.id
              = usageCountD envC4 stC4.session root.id + 1))) :=
  ⟨⟨by decide, by decide, c4_quota_theorem.1 envC4 1 stC4 (by decide) (by decide)⟩,
   c4_quota_theorem.2.1 envC4 1 stC4,
   ⟨rfl, c4_quota_theorem.2.2 envC4 scrapeC4 ["help"] "sub" stC4 postC4 c4after rfl⟩⟩

/-! ### C5 -/

def scrapeC5 : Scrape :=
  { id := 1, subreddits := "sub", keywords := "help", limit := 50, userId := 1,
    lastRun := none, isActive := true, aiGuidance := none, aiEnabled := true }

def postC5 : RPost :=
  { title := some "help wanted", selftext := none, author := "dan",
    permalink := "/r/sub/3", pid := some "p3", score := 2 }

/-- The month's ledger row already sits at the plan quota (3 of 3). -/
def dbC5 : DBView :=
  { scrapes := [scrapeC5], results := [], usage := [⟨1, 2026, 10, 3, 7⟩] }

def envC5 : Env :=
  { users := [⟨1, none⟩], plans := [⟨1, 3⟩], subscriptions := [⟨1, 1, true⟩],
    openaiKey := "sk", aiMinScore := 6, nowY := 2026, nowM := 10, nowTime := 5,
    fetch := fun _ _ => .posts [postC5], scoreOracle := fun _ => .respond 9 "hot" }

def stC5 : WorldState :=
  { durable := dbC5, session := dbC5, commits := 0, aiCalls := 0, ghlCalls := 0,
    fetchCalls := 0 }

def c5run : WorldState := run_scrape envC5 1 stC5

/-- C5 (as stated, refuted): with the quota exhausted the run persists the
post with `ai_score = null`, but the reason string is
`"AI quota exceeded (3/3)"`, not the `"quota exceeded."` the claim
requires; no scoring call is made. -/
theorem c5_quota_exhaustion_counterexample :
    c5run.session.results.map (fun r => (r.aiScore, r.aiReasoning))
      = [(none, "AI quota exceeded (3/3)")] ∧
    ("AI quota exceeded (3/3)" ≠ "quota exceeded.") ∧
    c5run.aiCalls = 0 := by
  decide

/-- C5 (amended): when the monthly quota is exhausted, a matched,
non-duplicate post is still persisted — the per-post step succeeds
(`.ok`), the appended `Result` has `ai_score = null` and the diagnostic
reason `"AI quota exceeded (<used>/<quota>)"`, and no scoring call is
made; the run is not aborted. -/
theorem c5_quota_exhaustion_amended (env : Env) (scrape : Scrape)
    (kws : List String) (name : String) (st : WorldState) (p : RPost)
    (root : PyUser) (plan : Plan)
    (hne : ¬ (matchKeywords (p.title.getD "") (p.selftext.getD "") kws).isEmpty = true)
    (hdup : dupExists st.session scrape.id (postExternalId p) = false)
    (hroot : get_account_root env scrape.userId = some root)
    (hEn : scrape.aiEnabled = true)
    (hplan : get_plan_for_user env scrape.userId = some plan)
    (hq : plan.aiPostsQuota ≤ usageCountD env st.session root.id) :
    ∃ st', processPost env scrape kws name st p = .ok st' ∧
      st'.session.results = st.session.results ++
        [mkResult scrape kws name p
          (none, "AI quota exceeded (" ++ toString (usageCountD env st.session root.id)
            ++ "/" ++ toString plan.aiPostsQuota ++ ")")] ∧
      (mkResult scrape kws name p
          (none, "AI quota exceeded (" ++ toString (usageCountD env st.session root.id)
            ++ "/" ++ toString plan.aiPostsQuota ++ ")")).aiScore = none ∧
      st'.aiCalls = st.aiCalls := by
  obtain ⟨h1, h2⟩ :=
    postAdded_quota_exceeded env scrape kws name st p root plan hEn hplan hq
  exact ⟨postAdded env scrape kws name st p root,
    processPost_eq_added env scrape kws name st p hne hdup root hroot, h1, rfl, h2⟩

theorem c5_quota_exhaustion_witness :
    ((¬ (matchKeywords (postC5.title.getD "") (postC5.selftext.getD "")
        ["help"]).isEmpty = true) ∧
      dupExists stC5.session scrapeC5.id (postExternalId postC5) = false ∧
      get_account_root envC5 scrapeC5.userId = some ⟨1, none⟩ ∧
      scrapeC5.aiEnabled = true ∧
      get_plan_for_user envC5 scrapeC5.userId = some ⟨1, 3⟩ ∧
      (⟨1, 3⟩ : Plan).aiPostsQuota ≤ usageCountD envC5 stC5.session (1 : Nat)) ∧
    (∃ st', processPost envC5 scrapeC5 ["help"] "sub" stC5 postC5 = .ok st' ∧
      st'.session.results = stC5.session.results ++
        [mkResult scrapeC5 ["help"] "sub" postC5
          (none, "AI quota exceeded ("
            ++ toString (usageCountD envC5 stC5.session (PyUser.mk 1 none).id)
            ++ "/" ++ toString (Plan.mk 1 3).aiPostsQuota ++ ")")] ∧
      (mkResult scrapeC5 ["help"] "sub" postC5
          (none, "AI quota exceeded ("
            ++ toString (usageCountD envC5 stC5.session (PyUser.mk 1 none).id)
            ++ "/" ++ toString (Plan.mk 1 3).aiPostsQuota ++ ")")).aiScore = none ∧
      st'.aiCalls = stC5.aiCalls) :=
  ⟨⟨by decide, by decide, by decide, by decide, by decide, by decide⟩,
   c5_quota_exhaustion_amended envC5 scrapeC5 ["help"] "sub" stC5 postC5
     ⟨1, none⟩ ⟨1, 3⟩ (by decide) (by decide) (by decide) rfl (by decide) (by decide)⟩

/-! ### C7 -/

def scrapeC7 : Scrape :=
  { id := 1, subreddits := "sub", keywords := "help", limit := 50, userId := 1,
    lastRun := none, isActive := true, aiGuidance := none, aiEnabled := false }

def postC7 : RPost :=
  { title := some "help me out", selftext := none, author := "eve",
    permalink := "/r/sub/4", pid := some "p4", score := 4 }

def dbC7 : DBView := { scrapes := [scrapeC7], results := [], usage := [] }

def envC7 : Env :=
  { users := [⟨1, none⟩], plans := [⟨1, 10⟩], subscriptions := [⟨1, 1, true⟩],
    openaiKey := "sk", aiMinScore := 6, nowY := 2026, nowM := 10, nowTime := 5,
    fetch := fun _ _ => .posts [postC7], scoreOracle := fun _ => .respond 9 "hot" }

def stC7 : WorldState :=
  { durable := dbC7, session := dbC7, commits := 0, aiCalls := 0, ghlCalls := 0,
    fetchCalls := 0 }

/-- C7: a run of a job whose AI flag is off makes zero scoring-client
calls (the call counter is unchanged), and every `Result` the run appends
has `ai_score = null` and reason `"AI disabled for this scrape"`. -/
theorem c7_ai_disabled_theorem (env : Env) (sid : Nat) (st : WorldState)
    (scrape : Scrape) (h : findScrape st.session sid = some scrape)
    (hdis : scrape.aiEnabled = false) :
    (run_scrape env sid st).aiCalls = st.aiCalls ∧
    ∃ l, (run_scrape env sid st).session.results = st.session.results ++ l ∧
      ∀ r ∈ l, r.aiScore = none ∧ r.aiReasoning = "AI disabled for this scrape" := by
  obtain ⟨⟨l, hres, hok⟩, hm, hc, hd⟩ := run_scrape_grows env sid st scrape h
  exact ⟨hd hdis, l, hres, fun r hr => (hok r hr).2.2 hdis⟩

theorem c7_ai_disabled_witness :
    ((findScrape stC7.session 1 = some scrapeC7 ∧ scrapeC7.aiEnabled = false) ∧
      ((run_scrape envC7 1 stC7).aiCalls = stC7.aiCalls ∧
        ∃ l, (run_scrape envC7 1 stC7).session.results = stC7.session.results ++ l ∧
          ∀ r ∈ l, r.aiScore = none ∧ r.aiReasoning = "AI disabled for this scrape")) ∧
    (run_scrape envC7 1 stC7).session.results.map (fun r => (r.aiScore, r.aiReasoning))
      = [(none, "AI disabled for this scrape")] ∧
    (run_scrape envC7 1 stC7).aiCalls = 0 :=
  ⟨⟨⟨by decide, by decide⟩,
    c7_ai_disabled_theorem envC7 1 stC7 scrapeC7 (by decide) (by decide)⟩,
   by decide, by decide⟩

/-! ### C8 -/

def scrapeC8 : Scrape :=
  { id := 1, subreddits := "sub", keywords := "help", limit := 50, userId := 1,
    lastRun := none, isActive := true, aiGuidance := none, aiEnabled := true }

def postC8 : RPost :=
  { title := some "need help now", selftext := none, author := "fred",
    permalink := "/r/sub/5", pid := some "p5", score := 6 }

/-- The month's ledger row already exists, so the lazy-creation commit of
`get_or_create_usage_month` does not fire during the post. -/
def dbC8 : DBView :=
  { scrapes := [scrapeC8], results := [], usage := [⟨1, 2026, 10, 0, 0⟩] }

def envC8 : Env :=
  { users := [⟨1, none⟩], plans := [⟨1, 10⟩], subscriptions := [⟨1, 1, true⟩],
    openaiKey := "sk", aiMinScore := 6, nowY := 2026, nowM := 10, nowTime := 5,
    fetch := fun _ _ => .posts [postC8], scoreOracle := fun _ => .respond 7 "ok" }

def stC8 : WorldState :=
  { durable := dbC8, session := dbC8, commits := 0, aiCalls := 0, ghlCalls := 0,
    fetchCalls := 0 }

/-- The state right after one post has been fully processed (scoring call
resolved, `Result` added to the session, ledger incremented). -/
def c8mid : WorldState :=
  exceptStateD (processPost envC8 scrapeC8 ["help"] "sub" stC8 postC8) stC8

/-- C8 (as stated, refuted): after a post's scoring call has resolved and
its `Result` and ledger increment have been recorded, nothing has been
committed — zero commits, durable result table still empty.  Durability
is not per item. -/
theorem c8_durability_counterexample :
    c8mid.aiCalls = stC8.aiCalls + 1 ∧
    c8mid.session.results.length = 1 ∧
    c8mid.durable.results.length = 0 ∧
    c8mid.commits = 0 := by
  decide

/-- C8 (amended): Results and ledger increments accumulate in the session
during the run and become durable together through the single
`db.session.commit()` at the end of the run (plus, at most, the one-time
commit that lazily creates the month's ledger row): a run of an existing
active job ends with `durable = session`. -/
theorem c8_durability_amended (env : Env) (sid : Nat) (st : WorldState)
    (scrape : Scrape) (h : findScrape st.session sid = some scrape)
    (hact : scrape.isActive = true) :
    (run_scrape env sid st).durable = (run_scrape env sid st).session := by
  rw [run_scrape_active env sid st scrape h hact]
  rfl

theorem c8_durability_witness :
    ((findScrape stC8.session 1 = some scrapeC8 ∧ scrapeC8.isActive = true) ∧
      (run_scrape envC8 1 stC8).durable = (run_scrape envC8 1 stC8).session) ∧
    (run_scrape envC8 1 stC8).commits = 1 ∧
    (run_scrape envC8 1 stC8).durable.results.length = 1 :=
  ⟨⟨⟨by decide, by decide⟩,
    c8_durability_amended envC8 1 stC8 scrapeC8 (by decide) (by decide)⟩,
   by decide, by decide⟩

/-! ### C9 -/

def scrapeC9 : Scrape :=
  { id := 1, subreddits := "a,b", keywords := "help", limit := 50, userId := 1,
    lastRun := none, isActive := true, aiGuidance := none, aiEnabled := true }

/-- A job owned by a user id with no `user` row: resolving the account
root yields `None` and `root.id` raises mid-source. -/
def scrapeC9b : Scrape :=
  { id := 2, subreddits := "b", keywords := "help", limit := 50, userId := 99,
    lastRun := none, isActive := true, aiGuidance := none, aiEnabled := true }

def postC9 : RPost :=
  { title := some "help please", selftext := none, author := "gina",
    permalink := "/r/b/6", pid := some "p6", score := 2 }

def dbC9 : DBView := { scrapes := [scrapeC9, scrapeC9b], results := [], usage := [] }

/-- Source `"a"` is unreachable; source `"b"` yields one matching post. -/
def envC9 : Env :=
  { users := [⟨1, none⟩], plans := [⟨1, 10⟩], subscriptions := [⟨1, 1, true⟩],
    openaiKey := "sk", aiMinScore := 6, nowY := 2026, nowM := 10, nowTime := 5,
    fetch := fun n _ => if n == "a" then .raise "down" else .posts [postC9],
    scoreOracle := fun _ => .respond 7 "ok" }

def stC9 : WorldState :=
  { durable := dbC9, session := dbC9, commits := 0, aiCalls := 0, ghlCalls := 0,
    fetchCalls := 0 }

/-- C9: (i) a source whose fetch raises is caught: the only trace it
leaves is the attempted fetch, and processing continues; (ii) a run whose
first source raises equals the run over the remaining sources — which are
still processed — and still completes (last-run update and final commit);
(iii) an exception raised while processing a post of one source is
absorbed by that source's handler without propagating.  In this model
`run_scrape` is a total function into states: no exception reaches the
caller that triggered the run. -/
theorem c9_failure_containment_theorem :
    (∀ (env : Env) (scrape : Scrape) (kws : List String) (st : WorldState)
      (name m : String), env.fetch name scrape.limit = .raise m →
      processSubreddit env scrape kws st name
        = { st with fetchCalls := st.fetchCalls + 1 }) ∧
    (∀ (env : Env) (sid : Nat) (st : WorldState) (scrape : Scrape)
      (a : String) (rest : List String) (m : String),
      findScrape st.session sid = some scrape → scrape.isActive = true →
      splitCommaTrim scrape.subreddits = a :: rest →
      env.fetch a scrape.limit = .raise m →
      run_scrape env sid st = commitDb (setLastRun env scrape.id
        (rest.foldl (fun acc n => processSubreddit env scrape
            (splitCommaTrimLower scrape.keywords) acc n)
          { st with fetchCalls := st.fetchCalls + 1 }))) ∧
    (∀ (env : Env) (scrape : Scrape) (kws : List String) (name : String)
      (st : WorldState) (p : RPost) (ps : List RPost) (m : String),
      processPost env scrape kws name st p = .error m →
      processPosts env scrape kws name st (p :: ps) = st) :=
  ⟨fun env scrape kws st name m h =>
      processSubreddit_raise env scrape kws st name m h,
   fun env sid st scrape a rest m h hact hsubs hfail =>
      run_scrape_skips_failed_source env sid st scrape a rest m h hact hsubs hfail,
   fun env scrape kws name st p ps m h =>
      processPosts_error env scrape kws name st p ps m h⟩

theorem c9_failure_containment_witness :
    (envC9.fetch "a" scrapeC9.limit = .raise "down" ∧
      processSubreddit envC9 scrapeC9 ["help"] stC9 "a"
        = { stC9 with fetchCalls := stC9.fetchCalls + 1 }) ∧
    ((findScrape stC9.session 1 = some scrapeC9 ∧ scrapeC9.isActive = true ∧
        splitCommaTrim scrapeC9.subreddits = ["a", "b"] ∧
        envC9.fetch "a" scrapeC9.limit = .raise "down") ∧
      run_scrape envC9 1 stC9 = commitDb (setLastRun envC9 scrapeC9.id
        (["b"].foldl (fun acc n => processSubreddit envC9 scrapeC9
            (splitCommaTrimLower scrapeC9.keywords) acc n)
          { stC9 with fetchCalls := stC9.fetchCalls + 1 }))) ∧
    (processPost envC9 scrapeC9b ["help"] "b" stC9 postC9 = .error "AttributeError" ∧
      processPosts envC9 scrapeC9b ["help"] "b" stC9 [postC9] = stC9) ∧
    (run_scrape envC9 1 stC9).session.results.length = 1 :=
  ⟨⟨by decide,
    c9_failure_containment_theorem.1 envC9 scrapeC9 ["help"] stC9 "a" "down" (by decide)⟩,
   ⟨⟨by decide, by decide, by decide, by decide⟩,
    c9_failure_containment_theorem.2.1 envC9 1 stC9 scrapeC9 "a" ["b"] "down"
      (by decide) (by decide) (by decide) (by decide)⟩,
   ⟨rfl,
    c9_failure_containment_theorem.2.2 envC9 scrapeC9b ["help"] "b" stC9 postC9 []
      "AttributeError" rfl⟩,
   by decide⟩

/-! ### C10 -/

def scrapeC10 : Scrape :=
  { id := 1, subreddits := "sub", keywords := "help", limit := 50, userId := 1,
    lastRun := none, isActive := false, aiGuidance := none, aiEnabled := true }

def dbC10 : DBView := { scrapes := [scrapeC10], results := [], usage := [] }

def envC10 : Env :=
  { users := [⟨1, none⟩], plans := [⟨1, 10⟩], subscriptions := [⟨1, 1, true⟩],
    openaiKey := "sk", aiMinScore := 6, nowY := 2026, nowM := 10, nowTime := 5,
    fetch := fun _ _ => .posts [], scoreOracle := fun _ => .respond 7 "ok" }

def stC10 : WorldState :=
  { durable := dbC10, session := dbC10, commits := 0, aiCalls := 0, ghlCalls := 0,
    fetchCalls := 0 }

/-- C10: invoking `run_scrape` with an id that does not exist, or whose
job is not active, returns the state unchanged — no `Result` inserted, no
usage-counter change, no last-run update, no commit, and zero calls to
the source fetcher, the scoring client or the CRM (all call counters are
part of the state, and the whole state is equal). -/
theorem c10_inactive_noop_theorem (env : Env) (sid : Nat) (st : WorldState)
    (h : findScrape st.session sid = none ∨
      ∃ scrape, findScrape st.session sid = some scrape ∧ scrape.isActive = false) :
    run_scrape env sid st = st := by
  rcases h with h | ⟨scrape, h, hact⟩
  · exact run_scrape_not_found env sid st h
  · exact run_scrape_inactive env sid st scrape h hact

theorem c10_inactive_noop_witness :
    ((findScrape stC10.session 2 = none ∨
        ∃ s, findScrape stC10.session 2 = some s ∧ s.isActive = false) ∧
      run_scrape envC10 2 stC10 = stC10) ∧
    ((findScrape stC10.session 1 = none ∨
        ∃ s, findScrape stC10.session 1 = some s ∧ s.isActive = false) ∧
      run_scrape envC10 1 stC10 = stC10) :=
  ⟨⟨Or.inl (by decide), c10_inactive_noop_theorem envC10 2 stC10 (Or.inl (by decide))⟩,
   ⟨Or.inr ⟨scrapeC10, by decide, by decide⟩,
    c10_inactive_noop_theorem envC10 1 stC10
      (Or.inr ⟨scrapeC10, by decide, by decide⟩)⟩⟩

end SignalBot
